import Mathlib

/-!
Verification development for the vim-style widget state machines of
gui-pyqt-widgets (vim_list.py, vim_table.py, vim_tree.py,
vim_multimedia_list.py).

The widgets are shallowly embedded as explicit state-transition functions.
Qt widget state that the Python code reads back (`currentRow`,
`currentColumn`, `currentItem`, widget item count) is carried in the state
records; the system clipboard is carried as a `clipboard` field written by
yank operations and readable by paste operations (an external clipboard
write is a separate environment event).  Wall-clock time (`time.time()`)
is modelled as an exact rational carried by each key/tick event.  Domain
signal emissions (`item_added`, `item_deleted`, ... and message boxes) are
returned as an explicit event list.
-/

namespace GuiWidgets

/-- Python whitespace (`str.strip` / `str.isspace` ASCII set):
space, tab, newline, carriage return, vertical tab, form feed. -/
def pySpace (c : Char) : Bool :=
  c.toNat = 32 || c.toNat = 9 || c.toNat = 10 || c.toNat = 13 ||
  c.toNat = 11 || c.toNat = 12

/-- Python `str.strip()` on the character list. -/
def pyStripChars (l : List Char) : List Char :=
  ((l.dropWhile pySpace).reverse.dropWhile pySpace).reverse

/-- Python `str.strip()`. -/
def pyStrip (s : String) : String := ⟨pyStripChars s.data⟩

/-- `needle` is a prefix of `hay` (character lists). -/
def charsPrefix : List Char → List Char → Bool
  | [], _ => true
  | _ :: _, [] => false
  | a :: as, b :: bs => a == b && charsPrefix as bs

/-- `needle` occurs as a contiguous substring of `hay`
(Python `needle in hay`; the empty needle always matches). -/
def charsContains (needle : List Char) : List Char → Bool
  | [] => charsPrefix needle []
  | hay@(_ :: t) => charsPrefix needle hay || charsContains needle t

/-- Python `needle in hay` on strings. -/
def pyIn (needle hay : String) : Bool := charsContains needle.data hay.data

/-- Python `str.isprintable()` for a single character, modelled on the
ASCII range (the only range the widgets' key events produce). -/
def pyIsPrintable (c : Char) : Bool := 32 ≤ c.toNat && c.toNat != 127

/-- Python `str.lower()`, modelled on the ASCII range via `Char.toLower`. -/
def pyLower (s : String) : String := ⟨s.data.map Char.toLower⟩

/-- Python `c in s` for a single character `c`. -/
def pyHasChar (s : String) (c : Char) : Bool := s.data.contains c

/-- Python `str.split(sep)` for a one-character separator, on char
lists (never returns an empty list; `"".split(sep) == [""]`). -/
def splitChars (sep : Char) : List Char → List (List Char)
  | [] => [[]]
  | c :: rest =>
    match splitChars sep rest with
    | [] => [[]]
    | h :: t => if c == sep then [] :: h :: t else (c :: h) :: t

/-- Python `str.split(sep)` for a one-character separator. -/
def pySplit (s : String) (sep : Char) : List String :=
  (splitChars sep s.data).map (fun l : List Char => ⟨l⟩)

/-- Python `s[:-1]`. -/
def pyDropLast (s : String) : String := ⟨s.data.dropLast⟩

/-- Python `list.insert(i, a)` for `i ≥ 0`: positions past the end clamp
to an append. -/
def pyInsert (i : Nat) (a : α) (l : List α) : List α :=
  l.take i ++ a :: l.drop i

/-- Domain events observable from the widgets: Qt signal emissions and
message-box notices. -/
inductive OutEv where
  | added (i : Int) (v : String)
  | deleted (i : Int) (v : String)
  | cellEdited (r c : Int) (old val : String)
  | nodeAdded (nid : Nat) (v : String)
  | nodeDeleted (nid : Nat) (v : String)
  | info (msg : String)
  | warning (msg : String)
  deriving Repr, DecidableEq

/-- The Qt key codes the widgets dispatch on. -/
inductive VKey where
  | keyJ | keyK | keyH | keyL | keyG | keyI | keyV | keyO | keyA | keyC
  | keyD | keyX | keyY | keyP | keyN | keyR
  | slash | space | escape | ret | backspace | other
  deriving Repr, DecidableEq

/-- A key-press event as delivered by Qt: key code, shift modifier,
`event.text()`, the `time.time()` at which handlers run, and the value a
modal input dialog would return if one is opened (`none` = cancelled). -/
structure KeyEv where
  key : VKey
  shift : Bool := false
  text : String := ""
  time : ℚ := 0
  dialog : Option String := none
  deriving Repr, DecidableEq

/-- Qt `setCurrentRow`: an in-range row becomes current, anything else
clears the current row to -1. -/
def setRow (count : Nat) (r : Int) : Int :=
  if 0 ≤ r ∧ r < (count : Int) then r else -1

namespace VimList

/-- State of a `VimList` widget: the model (`items`), the Qt list
widget's current row (`cursor`, -1 = no current item), the yank register
and pending-chord state, search and visual mode state, and the system
clipboard text. -/
structure ListState where
  items : List String
  cursor : Int
  copied_item : Option String
  pending_delete : Bool
  pending_copy : Bool
  delete_start_time : ℚ
  copy_start_time : ℚ
  edit_mode : Bool
  search_mode : Bool
  search_text : String
  search_results : List Nat
  current_search_index : Int
  visual_mode : Bool
  visual_start : Int
  visual_end : Int
  pending_g : Option ℚ
  clipboard : String
  deriving Repr, DecidableEq

/-- Cursor restoration of `_rebuild_list`: keep the captured row if still
valid, else the first row if any rows exist, else no current row
(`QListWidget.clear` leaves `currentRow() == -1`). -/
def rebuildRow (current_row : Int) (count : Nat) : Int :=
  if 0 ≤ current_row ∧ current_row < (count : Int) then current_row
  else if 0 < count then 0 else -1

/-- Widget state after `__init__` (which `_rebuild_list`s the initial
items from a fresh widget whose current row is -1); `clip` is whatever
the system clipboard holds at construction time. -/
def initState (items : List String) (clip : String) : ListState :=
  { items := items
    cursor := rebuildRow (-1) items.length
    copied_item := none
    pending_delete := false
    pending_copy := false
    delete_start_time := 0
    copy_start_time := 0
    edit_mode := false
    search_mode := false
    search_text := ""
    search_results := []
    current_search_index := -1
    visual_mode := false
    visual_start := -1
    visual_end := -1
    pending_g := none
    clipboard := clip }

/-- `VimList._move_down`. -/
def move_down (s : ListState) : ListState :=
  if s.cursor < (s.items.length : Int) - 1 then
    { s with cursor := setRow s.items.length (s.cursor + 1) }
  else s

/-- `VimList._move_up`. -/
def move_up (s : ListState) : ListState :=
  if 0 < s.cursor then
    { s with cursor := setRow s.items.length (s.cursor - 1) }
  else s

/-- `VimList._go_to_first`. -/
def go_to_first (s : ListState) : ListState :=
  if 0 < s.items.length then { s with cursor := setRow s.items.length 0 } else s

/-- `VimList._go_to_last`. -/
def go_to_last (s : ListState) : ListState :=
  if 0 < s.items.length then
    { s with cursor := setRow s.items.length ((s.items.length : Int) - 1) }
  else s

/-- `VimList._enter_edit_mode` (the snapshot of the original text lives in
the Qt item; only the mode flag is model state). -/
def enter_edit_mode (s : ListState) : ListState :=
  if 0 ≤ s.cursor then { s with edit_mode := true } else s

/-- Effect of `VimList._exit_edit_mode` on the model: on save the widget
item's committed text `txt` is written into `items[cursor]` when the row
is in range; on cancel the staged widget text is restored, leaving
`items` as they were (the `item_edited` signal payloads are not tracked). -/
def exit_edit_commit (s : ListState) (save : Bool) (txt : String) :
    ListState × List OutEv :=
  if s.edit_mode then
    if save ∧ 0 ≤ s.cursor ∧ s.cursor < (s.items.length : Int) then
      ({ s with items := s.items.set s.cursor.toNat txt, edit_mode := false }, [])
    else ({ s with edit_mode := false }, [])
  else (s, [])

/-- `VimList._add_item_below`; `dialog` is the input dialog's outcome. -/
def add_item_below (s : ListState) (dialog : Option String) :
    ListState × List OutEv :=
  let insert_pos : Nat := if 0 ≤ s.cursor then s.cursor.toNat + 1 else s.items.length
  match dialog with
  | none => (s, [])
  | some v =>
    let new_item := pyStrip v
    if new_item ≠ "" then
      let items' := pyInsert insert_pos new_item s.items
      let c1 := rebuildRow s.cursor items'.length
      let c2 := if insert_pos < items'.length then setRow items'.length insert_pos else c1
      ({ s with items := items', cursor := c2 }, [.added insert_pos new_item])
    else (s, [])

/-- `VimList._add_item_above`. -/
def add_item_above (s : ListState) (dialog : Option String) :
    ListState × List OutEv :=
  let insert_pos : Nat := if 0 ≤ s.cursor then s.cursor.toNat else 0
  match dialog with
  | none => (s, [])
  | some v =>
    let new_item := pyStrip v
    if new_item ≠ "" then
      let items' := pyInsert insert_pos new_item s.items
      let _c1 := rebuildRow s.cursor items'.length
      ({ s with items := items', cursor := setRow items'.length insert_pos },
       [.added insert_pos new_item])
    else (s, [])

/-- `VimList._delete_current_item`. -/
def delete_current_item (s : ListState) : ListState × List OutEv :=
  let s : ListState := { s with pending_delete := false }
  if 0 ≤ s.cursor ∧ 0 < s.items.length then
    let row := s.cursor.toNat
    let deleted := s.items.getD row ""
    let items' := s.items.eraseIdx row
    let c1 := rebuildRow s.cursor items'.length
    let row2 : Int := if (items'.length : Int) ≤ (row : Int) then (items'.length : Int) - 1 else (row : Int)
    let c2 := if 0 ≤ row2 then setRow items'.length row2 else c1
    ({ s with items := items', cursor := c2 }, [.deleted row2 deleted])
  else (s, [])

/-- `VimList._copy_current_item` (also pushes to the system clipboard). -/
def copy_current_item (s : ListState) : ListState :=
  let s : ListState := { s with pending_copy := false }
  if 0 ≤ s.cursor ∧ s.cursor < (s.items.length : Int) then
    let v := s.items.getD s.cursor.toNat ""
    { s with copied_item := some v, clipboard := v }
  else s

/-- `VimList._paste_below`: register first, else stripped clipboard text
(which then also populates the register), else an informational notice. -/
def paste_below (s : ListState) : ListState × List OutEv :=
  let reg : Option String :=
    match s.copied_item with
    | some v => some v
    | none => let ct := pyStrip s.clipboard; if ct ≠ "" then some ct else none
  match reg with
  | none => (s, [.info "No item copied"])
  | some v =>
    let s : ListState := { s with copied_item := some v }
    let insert_pos : Nat := if 0 ≤ s.cursor then s.cursor.toNat + 1 else s.items.length
    let items' := pyInsert insert_pos v s.items
    let c1 := rebuildRow s.cursor items'.length
    let c2 := if insert_pos < items'.length then setRow items'.length insert_pos else c1
    ({ s with items := items', cursor := c2 }, [.added insert_pos v])

/-- `VimList._paste_above`. -/
def paste_above (s : ListState) : ListState × List OutEv :=
  let reg : Option String :=
    match s.copied_item with
    | some v => some v
    | none => let ct := pyStrip s.clipboard; if ct ≠ "" then some ct else none
  match reg with
  | none => (s, [.info "No item copied"])
  | some v =>
    let s : ListState := { s with copied_item := some v }
    let insert_pos : Nat := if 0 ≤ s.cursor then s.cursor.toNat else 0
    let items' := pyInsert insert_pos v s.items
    let _c1 := rebuildRow s.cursor items'.length
    ({ s with items := items', cursor := setRow items'.length insert_pos },
     [.added insert_pos v])

/-- `VimList.remove_item` (public API): remove by index, rebuild, emit
`item_deleted` with the removal index. -/
def remove_item (s : ListState) (index : Int) : ListState × List OutEv :=
  if 0 ≤ index ∧ index < (s.items.length : Int) then
    let removed := s.items.getD index.toNat ""
    let items' := s.items.eraseIdx index.toNat
    ({ s with items := items', cursor := rebuildRow s.cursor items'.length },
     [.deleted index removed])
  else (s, [])

/-- `VimList._enter_visual_mode`. -/
def enter_visual_mode (s : ListState) : ListState :=
  if 0 ≤ s.cursor then
    { s with visual_mode := true, visual_start := s.cursor, visual_end := s.cursor }
  else s

/-- `VimList._exit_visual_mode` (highlight clearing has no model effect). -/
def exit_visual_mode (s : ListState) : ListState :=
  { s with visual_mode := false, visual_start := -1, visual_end := -1 }

/-- `VimList._visual_move_down`. -/
def visual_move_down (s : ListState) : ListState :=
  if s.cursor < (s.items.length : Int) - 1 then
    let nr := s.cursor + 1
    { s with cursor := setRow s.items.length nr, visual_end := nr }
  else s

/-- `VimList._visual_move_up`. -/
def visual_move_up (s : ListState) : ListState :=
  if 0 < s.cursor then
    let nr := s.cursor - 1
    { s with cursor := setRow s.items.length nr, visual_end := nr }
  else s

/-- The collection loop of `_copy_visual_selection`:
`for row in range(lo, hi+1): if row < len(items): append items[row]`. -/
def selRange (items : List String) (lo hi : Nat) : List String :=
  (List.range' lo (hi + 1 - lo)).filterMap
    (fun r : Nat => if r < items.length then some (items.getD r "") else none)

/-- `VimList._copy_visual_selection`: newline-join the in-bounds rows of
the normalized `[min,max]` range (in visual mode the anchors are
non-negative, so taking `toNat` of the bounds matches the Python
`range(start, end+1)` loop). -/
def copy_visual_selection (s : ListState) : ListState :=
  if s.visual_mode then
    let lo := (min s.visual_start s.visual_end).toNat
    let hi := (max s.visual_start s.visual_end).toNat
    let selected := selRange s.items lo hi
    if selected ≠ [] then
      let j := String.intercalate "\n" selected
      { s with copied_item := some j, clipboard := j }
    else s
  else s

/-- The deletion loop of `_delete_visual_selection`:
`for row in range(row0, lo-1, -1): if row < len(items): pop(row)`
(emitting `item_deleted` with the popped value at each pop). -/
def popFrom (lo : Nat) : Nat → List String → List String × List OutEv
  | row, items =>
    let onerow : List String × List OutEv :=
      if row < items.length then
        (items.eraseIdx row, [OutEv.deleted (row : Int) (items.getD row "")])
      else (items, [])
    if lo < row then
      let p := popFrom lo (row - 1) onerow.1
      (p.1, onerow.2 ++ p.2)
    else onerow

/-- `VimList._delete_visual_selection`: pop rows `max` down to `min`
(each pop guarded by `row < len`), then rebuild and re-clamp the
selection. -/
def delete_visual_selection (s : ListState) : ListState × List OutEv :=
  if s.visual_mode then
    let lo := (min s.visual_start s.visual_end).toNat
    let hi := (max s.visual_start s.visual_end).toNat
    let p := popFrom lo hi s.items
    let items' := p.1
    let c1 := rebuildRow s.cursor items'.length
    let c2 :=
      if (lo : Int) < (items'.length : Int) then setRow items'.length lo
      else if 0 < items'.length then setRow items'.length ((items'.length : Int) - 1)
      else c1
    ({ s with items := items', cursor := c2 }, p.2)
  else (s, [])

/-- `VimList._enter_search_mode`. -/
def enter_search_mode (s : ListState) : ListState :=
  { s with search_mode := true, search_text := "", search_results := [],
           current_search_index := -1 }

/-- `VimList._exit_search_mode` (note: it clears the match list and the
cycle index). -/
def exit_search_mode (s : ListState) : ListState :=
  { s with search_mode := false, search_text := "", search_results := [],
           current_search_index := -1 }

/-- The matching indices of `_execute_search`: case-insensitive substring
match of the search text against each item. -/
def searchMatches (needle : String) (items : List String) : List Nat :=
  (List.range items.length).filter fun i =>
    pyIn (pyLower needle) (pyLower (items.getD i ""))

/-- `VimList._execute_search`: build the match list, jump to the first
match (or notify), then `_exit_search_mode` — which clears the match
list it just built. -/
def execute_search (s : ListState) : ListState × List OutEv :=
  if s.search_text = "" then (exit_search_mode s, [])
  else
    let results := searchMatches s.search_text s.items
    match results with
    | [] =>
      (exit_search_mode s, [.info ("No results found for " ++ s.search_text)])
    | r0 :: _ =>
      (exit_search_mode
        { s with search_results := results, current_search_index := 0,
                 cursor := setRow s.items.length (r0 : Int) }, [])

/-- `VimList._search_next` (circular, Python `%` = `Int.emod`). -/
def search_next (s : ListState) : ListState :=
  if s.search_results.length = 0 then s
  else
    let idx := (s.current_search_index + 1).emod (s.search_results.length : Int)
    { s with current_search_index := idx,
             cursor := setRow s.items.length ((s.search_results.getD idx.toNat 0 : Nat) : Int) }

/-- `VimList._search_previous`. -/
def search_previous (s : ListState) : ListState :=
  if s.search_results.length = 0 then s
  else
    let idx := (s.current_search_index - 1).emod (s.search_results.length : Int)
    { s with current_search_index := idx,
             cursor := setRow s.items.length ((s.search_results.getD idx.toNat 0 : Nat) : Int) }

/-- `VimList._refresh_list`. -/
def refresh_list (s : ListState) : ListState :=
  let c1 := rebuildRow s.cursor s.items.length
  let c2 := if 0 ≤ s.cursor ∧ s.cursor < (s.items.length : Int) then
              setRow s.items.length s.cursor
            else c1
  { s with cursor := c2 }

/-- `VimList._check_pending_operations` (100 ms timer tick at time `t`):
an expired delete chord is dropped, an expired copy chord commits a
single-item yank, an expired pending `g` is dropped. -/
def check_pending_operations (s : ListState) (t : ℚ) : ListState :=
  let s : ListState := if s.pending_delete ∧ 1 < t - s.delete_start_time then
             { s with pending_delete := false } else s
  let s : ListState := if s.pending_copy ∧ 1 < t - s.copy_start_time then
             { copy_current_item s with pending_copy := false } else s
  match s.pending_g with
  | some tg => if 1 / 2 < t - tg then { s with pending_g := none } else s
  | none => s

/-- `VimList._handle_visual_mode_key`. -/
def handle_visual_mode_key (s : ListState) (e : KeyEv) : ListState × List OutEv :=
  match e.key with
  | .keyJ => (visual_move_down s, [])
  | .keyK => (visual_move_up s, [])
  | .keyY => (exit_visual_mode (copy_visual_selection s), [])
  | .keyD => let p := delete_visual_selection s; (exit_visual_mode p.1, p.2)
  | .keyX => let p := delete_visual_selection s; (exit_visual_mode p.1, p.2)
  | _ => (s, [])

/-- `VimList._handle_search_key`. -/
def handle_search_key (s : ListState) (e : KeyEv) : ListState × List OutEv :=
  match e.key with
  | .escape => (exit_search_mode s, [])
  | .ret => execute_search s
  | .backspace =>
    if s.search_text ≠ "" then
      ({ s with search_text := pyDropLast s.search_text }, [])
    else (exit_search_mode s, [])
  | _ =>
    if e.text.data.all pyIsPrintable then
      ({ s with search_text := s.search_text ++ e.text }, [])
    else (s, [])

/-- `VimList._handle_navigation_key`. -/
def handle_navigation_key (s : ListState) (e : KeyEv) : ListState × List OutEv :=
  if e.key = .escape ∧ s.visual_mode then (exit_visual_mode s, [])
  else if e.key = .escape ∧ s.pending_delete then ({ s with pending_delete := false }, [])
  else if e.key = .escape ∧ s.pending_copy then ({ s with pending_copy := false }, [])
  else if s.visual_mode then handle_visual_mode_key s e
  else if s.pending_delete then
    if e.key = .keyD then delete_current_item s
    else ({ s with pending_delete := false }, [])
  else if s.pending_copy then
    if e.key = .keyY then (copy_current_item s, [])
    else ({ s with pending_copy := false }, [])
  else
    match e.key with
    | .keyJ => (move_down s, [])
    | .keyK => (move_up s, [])
    | .keyG =>
      if e.shift then (go_to_last s, [])
      else
        (match s.pending_g with
         | some tg =>
           if e.time - tg < 1 / 2 then { go_to_first s with pending_g := none }
           else { s with pending_g := some e.time }
         | none => { s with pending_g := some e.time }, [])
    | .keyI => (enter_edit_mode s, [])
    | .keyV => (enter_visual_mode s, [])
    | .keyO => if e.shift then add_item_above s e.dialog else add_item_below s e.dialog
    | .keyD => ({ s with pending_delete := true, delete_start_time := e.time }, [])
    | .keyX => delete_current_item s
    | .keyY => ({ s with pending_copy := true, copy_start_time := e.time }, [])
    | .keyP => if e.shift then paste_above s else paste_below s
    | .slash => (enter_search_mode s, [])
    | .keyN => if e.shift then (search_previous s, []) else (search_next s, [])
    | .keyR => (refresh_list s, [])
    | _ => (s, [])

/-- `VimList._handle_key_event` (outside the Qt in-place editing state,
which is modelled by the separate `editCommit` environment event):
search-mode dispatch, then expiry of stale chords, then navigation. -/
def handle_key_event (s : ListState) (e : KeyEv) : ListState × List OutEv :=
  if s.search_mode then handle_search_key s e
  else
    let s : ListState := if s.pending_delete ∧ 1 < e.time - s.delete_start_time then
               { s with pending_delete := false } else s
    let s : ListState := if s.pending_copy ∧ 1 < e.time - s.copy_start_time then
               { s with pending_copy := false } else s
    handle_navigation_key s e

/-- Environment events driving a `VimList`: key presses, the periodic
timer tick, commit/cancel of an in-place edit, and an external write to
the system clipboard. -/
inductive LEvent where
  | key (e : KeyEv)
  | tick (t : ℚ)
  | editCommit (save : Bool) (txt : String)
  | clipSet (txt : String)
  deriving Repr

/-- One environment step. -/
def stepL (s : ListState) : LEvent → ListState × List OutEv
  | .key e => handle_key_event s e
  | .tick t => (check_pending_operations s t, [])
  | .editCommit save txt => exit_edit_commit s save txt
  | .clipSet txt => ({ s with clipboard := txt }, [])

/-- Run a sequence of environment events. -/
def runL (s : ListState) : List LEvent → ListState
  | [] => s
  | ev :: evs => runL (stepL s ev).1 evs

end VimList

namespace VimTable

/-- State of a `VimTable` widget: column headers, the row-major cell
model (`data`), the Qt table's current cell, the three paste registers
(`copied_row` / `copied_cell` / `copied_selection`), pending-chord and
visual-mode state, and the system clipboard. -/
structure TableState where
  columns : List String
  data : List (List String)
  curRow : Int
  curCol : Int
  copied_row : Option (List String)
  copied_cell : Option String
  copied_selection : Option (List (List String))
  pending_delete : Bool
  pending_copy : Bool
  delete_start_time : ℚ
  copy_start_time : ℚ
  visual_mode : Bool
  visual_line_mode : Bool
  visual_start_row : Int
  visual_start_col : Int
  visual_end_row : Int
  visual_end_col : Int
  clipboard : String
  deriving Repr, DecidableEq

/-- Qt `setCurrentCell`: an in-range cell becomes current, an invalid
index clears the current cell. -/
def setCell (nrows ncols : Nat) (r c : Int) : Int × Int :=
  if 0 ≤ r ∧ r < (nrows : Int) ∧ 0 ≤ c ∧ c < (ncols : Int) then (r, c) else (-1, -1)

/-- Cursor restoration of `_rebuild_table`: restore the captured cell if
both coordinates were non-negative and it is still in range, else the
top-left cell if the table is non-empty; with no cells left Qt's current
index is invalid (-1,-1); a cursor that was already cleared stays as it
was. -/
def rebuildCell (r c : Int) (nrows ncols : Nat) : Int × Int :=
  if 0 ≤ r ∧ 0 ≤ c then
    if r < (nrows : Int) ∧ c < (ncols : Int) then (r, c)
    else if 0 < nrows ∧ 0 < ncols then (0, 0)
    else (-1, -1)
  else (r, c)

/-- Tab-separated serialization of a row (`'\t'.join(str(cell) ...)`). -/
def tabJoin (row : List String) : String := String.intercalate "\t" row

/-- `VimTable._copy_current_row`: row register set, cell register
cleared, tab-joined text pushed to the system clipboard. -/
def copy_current_row (s : TableState) : TableState :=
  let s : TableState := { s with pending_copy := false }
  if 0 ≤ s.curRow ∧ s.curRow < (s.data.length : Int) then
    let row := s.data.getD s.curRow.toNat []
    { s with copied_row := some row, copied_cell := none, clipboard := tabJoin row }
  else s

/-- `VimTable._copy_current_cell`: cell register set, row register
cleared, cell text pushed to the system clipboard. -/
def copy_current_cell (s : TableState) : TableState :=
  if 0 ≤ s.curRow ∧ 0 ≤ s.curCol ∧ s.curRow < (s.data.length : Int) ∧
      s.curCol < ((s.data.getD s.curRow.toNat []).length : Int) then
    let v := (s.data.getD s.curRow.toNat []).getD s.curCol.toNat ""
    { s with copied_cell := some v, copied_row := none, clipboard := v }
  else s

/-- Python truthiness of an optional list (`None` and `[]` are falsy). -/
def truthyRow : Option (List String) → Bool
  | some (_ :: _) => true
  | _ => false

/-- Grow a row with empty cells until it has at least `n` cells
(the `while target_col >= len(...): append("")` loop). -/
def padRow (row : List String) (n : Nat) : List String :=
  row ++ List.replicate (n - row.length) ""

/-- Inner loop of `_paste_visual_selection`: write the cells of one
selection row into table row `tr` starting at column `tc`, skipping
columns past the column count, extending the row as needed, and
emitting `cell_edited` per written cell. -/
def writeCells (tr ncols : Nat) : Nat → List (String) → List String → List String × List OutEv
  | _, [], row => (row, [])
  | tc, v :: rest, row =>
    if tc < ncols then
      let row1 := padRow row (tc + 1)
      let old := row1.getD tc ""
      let row2 := row1.set tc v
      let p := writeCells tr ncols (tc + 1) rest row2
      (p.1, OutEv.cellEdited (tr : Int) (tc : Int) old v :: p.2)
    else
      writeCells tr ncols (tc + 1) rest row

/-- Outer loop of `_paste_visual_selection`: append blank rows of the
current column count until row `tr` exists, then write one selection
row, then recurse at `tr + 1`. -/
def pasteRows (ncols curCol : Nat) : Nat → List (List String) → List (List String) →
    List (List String) × List OutEv
  | _, [], data => (data, [])
  | tr, cells :: rest, data =>
    let data1 := data ++ List.replicate (tr + 1 - data.length) (List.replicate ncols "")
    let p := writeCells tr ncols curCol cells (data1.getD tr [])
    let data2 := data1.set tr p.1
    let q := pasteRows ncols curCol (tr + 1) rest data2
    (q.1, p.2 ++ q.2)

/-- `VimTable._paste_visual_selection`. -/
def paste_visual_selection (s : TableState) : TableState × List OutEv :=
  match s.copied_selection with
  | none => (s, [])
  | some sel =>
    if 0 ≤ s.curRow ∧ 0 ≤ s.curCol then
      let p := pasteRows s.columns.length s.curCol.toNat s.curRow.toNat sel s.data
      let rc := rebuildCell s.curRow s.curCol p.1.length s.columns.length
      ({ s with data := p.1, curRow := rc.1, curCol := rc.2 }, p.2)
    else (s, [])

/-- `VimTable._paste_clipboard_visual_selection`: parse multi-line
clipboard text into a block (tab-split per line), paste it via
`_paste_visual_selection`, restoring the old selection register. -/
def paste_clipboard_visual_selection (s : TableState) (ct : String) :
    TableState × List OutEv :=
  let selection := (pySplit ct '\n').map
    (fun line : String => if pyHasChar line '\t' then pySplit line '\t' else [line])
  let p := paste_visual_selection { s with copied_selection := some selection }
  ({ p.1 with copied_selection := s.copied_selection }, p.2)

/-- `VimTable._paste_row`: copied-selection register first, then
copied-cell register, then structural parse of non-empty clipboard text
(newline ⇒ block paste, tab ⇒ row insert, else scalar into the current
cell), then the copied-row register, else an informational notice.
A pasted row is padded/truncated to the column count before insertion. -/
def paste_row (s : TableState) : TableState × List OutEv :=
  let ct := pyStrip s.clipboard
  if s.copied_selection.isSome then paste_visual_selection s
  else
    match s.copied_cell with
    | some cell =>
      if 0 ≤ s.curRow ∧ 0 ≤ s.curCol ∧ s.curRow < (s.data.length : Int) ∧
          s.curCol < ((s.data.getD s.curRow.toNat []).length : Int) then
        let old := (s.data.getD s.curRow.toNat []).getD s.curCol.toNat ""
        let row' := (s.data.getD s.curRow.toNat []).set s.curCol.toNat cell
        ({ s with data := s.data.set s.curRow.toNat row' },
         [.cellEdited s.curRow s.curCol old cell])
      else (s, [])
    | none =>
      if ct ≠ "" ∧ pyHasChar ct '\n' then paste_clipboard_visual_selection s ct
      else if ct ≠ "" ∧ ¬ pyHasChar ct '\t' then
        if 0 ≤ s.curRow ∧ 0 ≤ s.curCol ∧ s.curRow < (s.data.length : Int) ∧
            s.curCol < ((s.data.getD s.curRow.toNat []).length : Int) then
          let old := (s.data.getD s.curRow.toNat []).getD s.curCol.toNat ""
          let row' := (s.data.getD s.curRow.toNat []).set s.curCol.toNat ct
          ({ s with data := s.data.set s.curRow.toNat row' },
           [.cellEdited s.curRow s.curCol old ct])
        else (s, [])
      else
        let pasted1 : Option (List String) :=
          if ct ≠ "" then some (pySplit ct '\t') else none
        let pasted2 : Option (List String) :=
          if ¬ truthyRow pasted1 ∧ truthyRow s.copied_row then s.copied_row else pasted1
        if truthyRow pasted2 then
          let pr0 := pasted2.getD []
          let n := s.columns.length
          let pr := if pr0.length < n then pr0 ++ List.replicate (n - pr0.length) ""
                    else if n < pr0.length then pr0.take n
                    else pr0
          let insert_pos : Nat := if 0 ≤ s.curRow then s.curRow.toNat + 1 else s.data.length
          let data' := pyInsert insert_pos pr s.data
          let rc := rebuildCell s.curRow s.curCol data'.length s.columns.length
          let rc2 := if insert_pos < data'.length then
                       setCell data'.length s.columns.length (insert_pos : Int) rc.2
                     else rc
          ({ s with data := data', curRow := rc2.1, curCol := rc2.2 }, [])
        else (s, [.info "No content copied"])

/-- `VimTable._add_column_right`. -/
def add_column_right (s : TableState) : TableState :=
  let insert_pos : Nat := if 0 ≤ s.curCol then s.curCol.toNat + 1 else s.columns.length
  let new_col_name := "Col" ++ toString (s.columns.length + 1)
  let columns' := pyInsert insert_pos new_col_name s.columns
  let data' := s.data.map (fun row : List String => pyInsert insert_pos "" row)
  let rc := rebuildCell s.curRow s.curCol data'.length columns'.length
  let rc2 := if insert_pos < columns'.length then
               setCell data'.length columns'.length rc.1 (insert_pos : Int)
             else rc
  { s with columns := columns', data := data', curRow := rc2.1, curCol := rc2.2 }

/-- `VimTable._add_column_end`. -/
def add_column_end (s : TableState) : TableState :=
  let new_col_name := "Col" ++ toString (s.columns.length + 1)
  let columns' := s.columns ++ [new_col_name]
  let data' := s.data.map (fun row : List String => row ++ [""])
  let rc := rebuildCell s.curRow s.curCol data'.length columns'.length
  let rc2 := setCell data'.length columns'.length rc.1 ((columns'.length : Int) - 1)
  { s with columns := columns', data := data', curRow := rc2.1, curCol := rc2.2 }

/-- `VimTable._delete_current_row`: refused with a warning when only one
row remains. -/
def delete_current_row (s : TableState) : TableState × List OutEv :=
  let s : TableState := { s with pending_delete := false }
  if 0 ≤ s.curRow ∧ 1 < s.data.length then
    let data' := s.data.eraseIdx s.curRow.toNat
    let rc := rebuildCell s.curRow s.curCol data'.length s.columns.length
    let row2 : Int := if (data'.length : Int) ≤ s.curRow then (data'.length : Int) - 1 else s.curRow
    let rc2 := if 0 ≤ row2 then setCell data'.length s.columns.length row2 rc.2 else rc
    ({ s with data := data', curRow := rc2.1, curCol := rc2.2 }, [])
  else (s, [.warning "Cannot delete the last remaining row"])

/-- `VimTable._delete_current_column`: refused with a warning when only
one column remains. -/
def delete_current_column (s : TableState) : TableState × List OutEv :=
  let s : TableState := { s with pending_delete := false }
  if 0 ≤ s.curCol ∧ 1 < s.columns.length then
    let columns' := s.columns.eraseIdx s.curCol.toNat
    let data' := s.data.map
      (fun row : List String =>
        if s.curCol < (row.length : Int) then row.eraseIdx s.curCol.toNat else row)
    let rc := rebuildCell s.curRow s.curCol data'.length columns'.length
    let col2 : Int := if (columns'.length : Int) ≤ s.curCol then (columns'.length : Int) - 1 else s.curCol
    let rc2 := if 0 ≤ col2 then setCell data'.length columns'.length rc.1 col2 else rc
    ({ s with columns := columns', data := data', curRow := rc2.1, curCol := rc2.2 }, [])
  else (s, [.warning "Cannot delete the last remaining column"])

/-- `VimTable._exit_visual_mode`. -/
def exit_visual_mode (s : TableState) : TableState :=
  { s with visual_mode := false, visual_line_mode := false,
           visual_start_row := -1, visual_start_col := -1,
           visual_end_row := -1, visual_end_col := -1 }

/-- `VimTable._copy_visual_selection`: snapshot the normalized rectangle
(blank-filling out-of-range cells) into the selection register and
serialize it to the clipboard. -/
def copy_visual_selection (s : TableState) : TableState :=
  if s.visual_mode ∨ s.visual_line_mode then
    let sr := (min s.visual_start_row s.visual_end_row).toNat
    let er := (max s.visual_start_row s.visual_end_row).toNat
    let sc := (min s.visual_start_col s.visual_end_col).toNat
    let ec := (max s.visual_start_col s.visual_end_col).toNat
    let grid := (List.range' sr (er + 1 - sr)).map fun r : Nat =>
      (List.range' sc (ec + 1 - sc)).map fun c : Nat =>
        if r < s.data.length ∧ c < (s.data.getD r []).length then
          (s.data.getD r []).getD c ""
        else ""
    let clip := match grid with
      | [[x]] => x
      | _ => String.intercalate "\n" (grid.map tabJoin)
    { s with copied_selection := some grid, copied_row := none, copied_cell := none,
             clipboard := clip }
  else s

/-- `VimTable._visual_move_left`. -/
def visual_move_left (s : TableState) : TableState :=
  if s.visual_line_mode then s
  else if 0 < s.curCol then
    let nc := s.curCol - 1
    let rc := setCell s.data.length s.columns.length s.curRow nc
    { s with curRow := rc.1, curCol := rc.2, visual_end_col := nc }
  else s

/-- `VimTable._visual_move_right`. -/
def visual_move_right (s : TableState) : TableState :=
  if s.visual_line_mode then s
  else if s.curCol < (s.columns.length : Int) - 1 then
    let nc := s.curCol + 1
    let rc := setCell s.data.length s.columns.length s.curRow nc
    { s with curRow := rc.1, curCol := rc.2, visual_end_col := nc }
  else s

/-- `VimTable._visual_move_up`. -/
def visual_move_up (s : TableState) : TableState :=
  if 0 < s.curRow then
    let nr := s.curRow - 1
    let rc := setCell s.data.length s.columns.length nr s.curCol
    let s : TableState := { s with curRow := rc.1, curCol := rc.2, visual_end_row := nr }
    if s.visual_line_mode then { s with visual_end_col := (s.columns.length : Int) - 1 } else s
  else s

/-- `VimTable._visual_move_down`. -/
def visual_move_down (s : TableState) : TableState :=
  if s.curRow < (s.data.length : Int) - 1 then
    let nr := s.curRow + 1
    let rc := setCell s.data.length s.columns.length nr s.curCol
    let s : TableState := { s with curRow := rc.1, curCol := rc.2, visual_end_row := nr }
    if s.visual_line_mode then { s with visual_end_col := (s.columns.length : Int) - 1 } else s
  else s

/-- `VimTable._handle_visual_mode_key`: note that `d` merely exits
visual mode — no deletion is performed in the table's visual mode. -/
def handle_visual_mode_key (s : TableState) (e : KeyEv) : TableState × Bool :=
  match e.key with
  | .keyH => (visual_move_left s, true)
  | .keyJ => (visual_move_down s, true)
  | .keyK => (visual_move_up s, true)
  | .keyL => (visual_move_right s, true)
  | .keyY => (exit_visual_mode (copy_visual_selection s), true)
  | .keyD => (exit_visual_mode s, true)
  | _ => (s, false)

/-- `VimTable._check_pending_operations`: an expired delete chord is
dropped, an expired copy chord commits a single-cell copy. -/
def check_pending_operations (s : TableState) (t : ℚ) : TableState :=
  let s : TableState := if s.pending_delete ∧ 1 < t - s.delete_start_time then
                          { s with pending_delete := false } else s
  if s.pending_copy ∧ 1 < t - s.copy_start_time then
    { copy_current_cell s with pending_copy := false }
  else s

/-- The tabular shape invariant: every data row has exactly as many
cells as there are columns. -/
@[reducible] def rowsOk (s : TableState) : Prop :=
  ∀ row ∈ s.data, row.length = s.columns.length

end VimTable

namespace VimTree

/-- A `QTreeWidgetItem`: identity, display text, expansion flag, ordered
children. -/
inductive TNode where
  | node (nid : Nat) (text : String) (expanded : Bool) (children : List TNode)
  deriving Repr

/-- Ids of the visible items of a forest in visual (top-to-bottom) order:
a node is followed by its children only when it is expanded
(`itemAbove`/`itemBelow` traversal order). -/
def visibleIds : List TNode → List Nat
  | [] => []
  | .node nid _ exp ch :: rest =>
    nid :: ((if exp then visibleIds ch else []) ++ visibleIds rest)

/-- Whether a node with the given id exists anywhere in the forest. -/
def containsId : List TNode → Nat → Bool
  | [], _ => false
  | .node nid _ _ ch :: rest, x =>
    nid == x || containsId ch x || containsId rest x

/-- Display text of the node with the given id. -/
def textOf : List TNode → Nat → Option String
  | [], _ => none
  | .node nid t _ ch :: rest, x =>
    if nid = x then some t
    else match textOf ch x with
      | some r => some r
      | none => textOf rest x

/-- Number of children of the node with the given id. -/
def childCount : List TNode → Nat → Nat
  | [], _ => 0
  | .node nid _ _ ch :: rest, x =>
    if nid = x then ch.length else childCount ch x + childCount rest x

/-- `QTreeWidget.itemBelow`: the visible item following `x`. -/
def itemBelow (f : List TNode) (x : Nat) : Option Nat :=
  let vis := visibleIds f
  match vis.findIdx? (· = x) with
  | some i => vis.get? (i + 1)
  | none => none

/-- `QTreeWidget.itemAbove`: the visible item preceding `x`. -/
def itemAbove (f : List TNode) (x : Nat) : Option Nat :=
  let vis := visibleIds f
  match vis.findIdx? (· = x) with
  | some (i + 1) => vis.get? i
  | _ => none

/-- Remove the node with the given id (with its whole subtree). -/
def removeId : List TNode → Nat → List TNode
  | [], _ => []
  | .node nid t e ch :: rest, x =>
    if nid = x then rest
    else .node nid t e (removeId ch x) :: removeId rest x

/-- Append a new node to the children of node `p` wherever it occurs. -/
def addChildAt : List TNode → Nat → TNode → List TNode
  | [], _, _ => []
  | .node nid t e ch :: rest, p, n =>
    if nid = p then .node nid t e (ch ++ [n]) :: rest
    else .node nid t e (addChildAt ch p n) :: addChildAt rest p n

/-- `QTreeWidgetItem` creation with a parent (or the invisible root):
append to the parent's children, or to the top level. -/
def insertChild (f : List TNode) (parent : Option Nat) (n : TNode) : List TNode :=
  match parent with
  | none => f ++ [n]
  | some p => addChildAt f p n

/-- Insert a new node immediately before its reference sibling
(`insertChild(ref_index, item)` of `add_sibling_node` with `above`). -/
def insertSiblingAbove : List TNode → Nat → TNode → List TNode
  | [], _, _ => []
  | .node nid t e ch :: rest, ref, n =>
    if nid = ref then n :: .node nid t e ch :: rest
    else .node nid t e (insertSiblingAbove ch ref n) :: insertSiblingAbove rest ref n

/-- `setExpanded(True)` on the node with the given id. -/
def expandId : List TNode → Nat → List TNode
  | [], _ => []
  | .node nid t e ch :: rest, x =>
    if nid = x then .node nid t true ch :: rest
    else .node nid t e (expandId ch x) :: expandId rest x

/-- The `{'text', 'data', 'children'}` dict held by the tree's yank
register (`data` is always `None` for keyboard-created nodes and is
opaque to the model). -/
inductive TItemData where
  | mk (text : String) (children : List TItemData)
  deriving Repr

/-- Text of a register dict. -/
def tText : TItemData → String
  | .mk t _ => t

/-- The node with the given id, if it exists in the forest. -/
def findNode : List TNode → Nat → Option TNode
  | [], _ => none
  | .node nid t e ch :: rest, x =>
    if nid = x then some (.node nid t e ch)
    else match findNode ch x with
      | some r => some r
      | none => findNode rest x

/-- `QTreeWidgetItem.parent()` of the node with the given id (`none` for
a top-level node or a missing id). -/
def parentOf : List TNode → Nat → Option Nat
  | [], _ => none
  | .node nid _ _ ch :: rest, x =>
    if ch.any (fun c => match c with | .node cid _ _ _ => cid == x) then some nid
    else match parentOf ch x with
      | some r => some r
      | none => parentOf rest x

mutual
/-- `VimTree._copy_tree_item`: deep-copy a subtree into a register dict. -/
def copy_tree_item : TNode → TItemData
  | .node _ t _ ch => .mk t (copy_forest ch)
/-- The children loop of `_copy_tree_item`. -/
def copy_forest : List TNode → List TItemData
  | [] => []
  | n :: rest => copy_tree_item n :: copy_forest rest
end

/-- State of a `VimTree` widget: the forest, the current item (by id,
`none` when Qt has no current item), a fresh-id counter standing for Qt
object identity, the pending-chord flags, the yank register, the system
clipboard, and the visual-mode anchors (item references by id). -/
structure TreeState where
  forest : List TNode
  cursor : Option Nat
  next_id : Nat
  pending_delete : Bool
  pending_copy : Bool
  copied_item : Option TItemData := none
  clipboard : String := ""
  visual_mode : Bool := false
  visual_start : Option Nat := none
  visual_end : Option Nat := none
  deriving Repr

/-- `VimTree.add_child_node` (public API): create the item under the
given parent (or at top level), emit `node_added`, and return it. -/
def add_child_node (s : TreeState) (parent : Option Nat) (text : String) :
    (TreeState × Nat) × List OutEv :=
  let nid := s.next_id
  (({ s with forest := insertChild s.forest parent (.node nid text false []),
             next_id := nid + 1 }, nid),
   [.nodeAdded nid text])

/-- `VimTree.add_sibling_node` with `above=True` (the only use by the
keyboard commands): insert before the reference item, emit `node_added`. -/
def add_sibling_node (s : TreeState) (ref : Nat) (text : String) :
    (TreeState × Nat) × List OutEv :=
  let nid := s.next_id
  (({ s with forest := insertSiblingAbove s.forest ref (.node nid text false []),
             next_id := nid + 1 }, nid),
   [.nodeAdded nid text])

/-- `VimTree.remove_node` (public API): detach the item and emit
`node_deleted`. -/
def remove_node (s : TreeState) (item : Option Nat) : TreeState × List OutEv :=
  match item with
  | none => (s, [])
  | some nid =>
    ({ s with forest := removeId s.forest nid },
     [.nodeDeleted nid ((textOf s.forest nid).getD "")])

/-- `VimTree._add_child_node` (the `o` command): on a confirmed
non-blank input, add a stripped child of the current item (or a
top-level node), make it current, and expand the parent. -/
def add_child_node_key (s : TreeState) (dialog : Option String) :
    TreeState × List OutEv :=
  match dialog with
  | none => (s, [])
  | some v =>
    let new_text := pyStrip v
    if new_text ≠ "" then
      let r := add_child_node s s.cursor new_text
      let s1 : TreeState := { r.1.1 with cursor := some r.1.2 }
      let s2 : TreeState :=
        match s.cursor with
        | some p => if 0 < childCount s1.forest p then
                      { s1 with forest := expandId s1.forest p }
                    else s1
        | none => s1
      (s2, r.2)
    else (s, [])

/-- `VimTree._add_sibling_above` (the `O` command): requires a current
item; on a confirmed non-blank input, insert a stripped sibling above it
and make it current. -/
def add_sibling_above_key (s : TreeState) (dialog : Option String) :
    TreeState × List OutEv :=
  match s.cursor with
  | none => (s, [])
  | some ref =>
    match dialog with
    | none => (s, [])
    | some v =>
      let new_text := pyStrip v
      if new_text ≠ "" then
        let r := add_sibling_node s ref new_text
        ({ r.1.1 with cursor := some r.1.2 }, r.2)
      else (s, [])

/-- `VimTree._delete_current_node`: pick the visible successor (else
predecessor) as the next current item, remove the current node, and make
the survivor current (Qt clears the current item when it is the one
removed and nothing is re-selected; a chosen next item that was inside
the removed subtree no longer exists and cannot become current). -/
def delete_current_node (s : TreeState) : TreeState × List OutEv :=
  let s : TreeState := { s with pending_delete := false }
  match s.cursor with
  | none => (s, [])
  | some cid =>
    let next := match itemBelow s.forest cid with
      | some n => some n
      | none => itemAbove s.forest cid
    let p := remove_node s (some cid)
    let cursor' := match next with
      | some n => if containsId p.1.forest n then some n else none
      | none => none
    ({ p.1 with cursor := cursor' }, p.2)

/-- `VimTree._copy_current_node`: deep-copy the current item into the
yank register and push its display text to the system clipboard (in any
reachable state the current id resolves to a node of the forest). -/
def copy_current_node (s : TreeState) : TreeState :=
  let s : TreeState := { s with pending_copy := false }
  match s.cursor with
  | none => s
  | some cid =>
    match findNode s.forest cid with
    | none => s
    | some n => { s with copied_item := some (copy_tree_item n),
                         clipboard := tText (copy_tree_item n) }

mutual
/-- `VimTree._paste_tree_item` threaded over the forest and the fresh-id
counter: create the root under `parent` (emitting `node_added`, as
`add_child_node` does), then paste the children below it. Returns the
new forest, the next fresh id, the new root's id and the events. -/
def paste_tree_item (parent : Option Nat) : TItemData → List TNode → Nat →
    List TNode × Nat × Nat × List OutEv
  | .mk t ch, f, next =>
    let f1 := insertChild f parent (.node next t false [])
    let q := paste_children (some next) ch f1 (next + 1)
    (q.1, q.2.1, next, [OutEv.nodeAdded next t] ++ q.2.2)
/-- The children loop of `_paste_tree_item`. -/
def paste_children (parent : Option Nat) : List TItemData → List TNode → Nat →
    List TNode × Nat × List OutEv
  | [], f, next => (f, next, [])
  | d :: rest, f, next =>
    let p := paste_tree_item parent d f next
    let q := paste_children parent rest p.1 p.2.1
    (q.1, q.2.1, p.2.2.2 ++ q.2.2)
end

/-- Whether the node with the given id is expanded. -/
def isExpanded : List TNode → Nat → Bool
  | [], _ => false
  | .node nid _ e ch :: rest, x =>
    if nid = x then e else isExpanded ch x || isExpanded rest x

/-- Id of the first child of the node with the given id. -/
def firstChildOf (f : List TNode) (x : Nat) : Option Nat :=
  match findNode f x with
  | some (.node _ _ _ (.node cid _ _ _ :: _)) => some cid
  | _ => none

/-- `VimTree._exit_visual_mode`. -/
def exit_visual_mode (s : TreeState) : TreeState :=
  { s with visual_mode := false, visual_start := none, visual_end := none }

/-- `VimTree._visual_move_down`. -/
def visual_move_down (s : TreeState) : TreeState :=
  match s.cursor with
  | none => s
  | some cid =>
    match itemBelow s.forest cid with
    | some n => { s with cursor := some n, visual_end := some n }
    | none => s

/-- `VimTree._visual_move_up`. -/
def visual_move_up (s : TreeState) : TreeState :=
  match s.cursor with
  | none => s
  | some cid =>
    match itemAbove s.forest cid with
    | some n => { s with cursor := some n, visual_end := some n }
    | none => s

/-- `VimTree._visual_move_left` (to the parent). -/
def visual_move_left (s : TreeState) : TreeState :=
  match s.cursor with
  | none => s
  | some cid =>
    match parentOf s.forest cid with
    | some p => { s with cursor := some p, visual_end := some p }
    | none => s

/-- `VimTree._visual_move_right` (expand if needed, go to first child). -/
def visual_move_right (s : TreeState) : TreeState :=
  match s.cursor with
  | none => s
  | some cid =>
    if 0 < childCount s.forest cid then
      let f := if isExpanded s.forest cid then s.forest else expandId s.forest cid
      match firstChildOf f cid with
      | some c => { s with forest := f, cursor := some c, visual_end := some c }
      | none => { s with forest := f }
    else s

/-- `VimTree._copy_visual_selection` — note: "For simplicity, copy the
current item": it yanks the current node only, not the visual range. -/
def copy_visual_selection (s : TreeState) : TreeState :=
  if s.visual_mode ∧ s.visual_start.isSome then copy_current_node s else s

/-- `VimTree._delete_visual_selection` — note: "For simplicity, delete
the current item": it removes the current node only, not the visual
range. -/
def delete_visual_selection (s : TreeState) : TreeState × List OutEv :=
  if s.visual_mode ∧ s.visual_start.isSome then delete_current_node s else (s, [])

/-- `VimTree._handle_visual_mode_key`. -/
def handle_visual_mode_key (s : TreeState) (e : KeyEv) : TreeState × List OutEv :=
  match e.key with
  | .keyJ => (visual_move_down s, [])
  | .keyK => (visual_move_up s, [])
  | .keyH => (visual_move_left s, [])
  | .keyL => (visual_move_right s, [])
  | .keyY => (exit_visual_mode (copy_visual_selection s), [])
  | .keyD => let p := delete_visual_selection s
             (exit_visual_mode p.1, p.2)
  | .keyX => let p := delete_visual_selection s
             (exit_visual_mode p.1, p.2)
  | _ => (s, [])

end VimTree

namespace VimMM

/-- One multimedia item: the `{'text', 'pixmap', 'id'}` dict (the pixmap
is opaque to the model). -/
structure MMItem where
  text : String
  pixmap : Option Nat
  id : Option Nat
  deriving Repr, DecidableEq

/-- State of a `VimMultimediaList`: the item list, the current row, the
yank register (an item dict), the system clipboard, and the visual-mode
anchors. -/
structure MMState where
  items : List MMItem
  cursor : Int
  copied_item : Option MMItem := none
  clipboard : String := ""
  visual_mode : Bool := false
  visual_start : Int := -1
  visual_end : Int := -1
  deriving Repr, DecidableEq

/-- `VimMultimediaList.add_item` (public API): insert (or append) the
item dict, rebuild, and emit `item_added` (the payload dict is
represented by its text). -/
def add_item (s : MMState) (text : String) (pixmap : Option Nat)
    (item_id : Option Nat) (index : Option Nat) : MMState × List OutEv :=
  let item : MMItem := ⟨text, pixmap, item_id⟩
  let items' := match index with
    | none => s.items ++ [item]
    | some i => pyInsert i item s.items
  let idx : Nat := match index with
    | none => s.items.length
    | some i => i
  ({ s with items := items', cursor := VimList.rebuildRow s.cursor items'.length },
   [.added (idx : Int) text])

/-- `VimMultimediaList._add_item_below`. -/
def add_item_below (s : MMState) (dialog : Option String) : MMState × List OutEv :=
  let insert_pos : Nat := if 0 ≤ s.cursor then s.cursor.toNat + 1 else s.items.length
  match dialog with
  | none => (s, [])
  | some v =>
    let new_text := pyStrip v
    if new_text ≠ "" then
      let p := add_item s new_text none none (some insert_pos)
      let s2 : MMState := if insert_pos < p.1.items.length then
                            { p.1 with cursor := setRow p.1.items.length (insert_pos : Int) }
                          else p.1
      (s2, p.2)
    else (s, [])

/-- `VimMultimediaList._add_item_above`. -/
def add_item_above (s : MMState) (dialog : Option String) : MMState × List OutEv :=
  let insert_pos : Nat := if 0 ≤ s.cursor then s.cursor.toNat else 0
  match dialog with
  | none => (s, [])
  | some v =>
    let new_text := pyStrip v
    if new_text ≠ "" then
      let p := add_item s new_text none none (some insert_pos)
      ({ p.1 with cursor := setRow p.1.items.length (insert_pos : Int) }, p.2)
    else (s, [])

/-- `VimMultimediaList.remove_item` (public API): remove by index,
rebuild, and emit `item_deleted` with the removal index (the payload
dict is represented by its text). -/
def remove_item (s : MMState) (index : Int) : MMState × List OutEv :=
  if 0 ≤ index ∧ index < (s.items.length : Int) then
    let removed := s.items.getD index.toNat ⟨"", none, none⟩
    let items' := s.items.eraseIdx index.toNat
    ({ s with items := items', cursor := VimList.rebuildRow s.cursor items'.length },
     [.deleted index removed.text])
  else (s, [])

/-- `VimMultimediaList._copy_current_item`: copy the current item dict
into the register and its text to the system clipboard (the
pending-copy flag is not part of this model's state). -/
def copy_current_item (s : MMState) : MMState :=
  if 0 ≤ s.cursor ∧ s.cursor < (s.items.length : Int) then
    let it := s.items.getD s.cursor.toNat ⟨"", none, none⟩
    { s with copied_item := some it, clipboard := it.text }
  else s

/-- `VimMultimediaList._paste_below`: register first, else the stripped
clipboard text as a flat item (which then also populates the register),
else an informational notice. -/
def paste_below (s : MMState) : MMState × List OutEv :=
  let reg : Option MMItem :=
    match s.copied_item with
    | some it => some it
    | none =>
      let ct := pyStrip s.clipboard
      if ct ≠ "" then some ⟨ct, none, none⟩ else none
  match reg with
  | none => (s, [.info "No item copied"])
  | some it =>
    let s : MMState := { s with copied_item := some it }
    let insert_pos : Nat := if 0 ≤ s.cursor then s.cursor.toNat + 1 else s.items.length
    let p := add_item s it.text it.pixmap it.id (some insert_pos)
    let s2 : MMState := if insert_pos < p.1.items.length then
                          { p.1 with cursor := setRow p.1.items.length (insert_pos : Int) }
                        else p.1
    (s2, p.2)

/-- `VimMultimediaList._paste_above`. -/
def paste_above (s : MMState) : MMState × List OutEv :=
  let reg : Option MMItem :=
    match s.copied_item with
    | some it => some it
    | none =>
      let ct := pyStrip s.clipboard
      if ct ≠ "" then some ⟨ct, none, none⟩ else none
  match reg with
  | none => (s, [.info "No item copied"])
  | some it =>
    let s : MMState := { s with copied_item := some it }
    let insert_pos : Nat := if 0 ≤ s.cursor then s.cursor.toNat else 0
    let p := add_item s it.text it.pixmap it.id (some insert_pos)
    ({ p.1 with cursor := setRow p.1.items.length (insert_pos : Int) }, p.2)

/-- `VimMultimediaList._exit_visual_mode`. -/
def exit_visual_mode (s : MMState) : MMState :=
  { s with visual_mode := false, visual_start := -1, visual_end := -1 }

/-- `VimMultimediaList._visual_move_down`. -/
def visual_move_down (s : MMState) : MMState :=
  if s.cursor < (s.items.length : Int) - 1 then
    let nr := s.cursor + 1
    { s with cursor := setRow s.items.length nr, visual_end := nr }
  else s

/-- `VimMultimediaList._visual_move_up`. -/
def visual_move_up (s : MMState) : MMState :=
  if 0 < s.cursor then
    let nr := s.cursor - 1
    { s with cursor := setRow s.items.length nr, visual_end := nr }
  else s

/-- `VimMultimediaList._copy_visual_selection`: collect the texts of the
in-bounds rows of the normalized `[min,max]` range, newline-join them
into a flat register item and push the text to the clipboard. -/
def copy_visual_selection (s : MMState) : MMState :=
  if s.visual_mode then
    let lo := (min s.visual_start s.visual_end).toNat
    let hi := (max s.visual_start s.visual_end).toNat
    let selected := VimList.selRange (s.items.map MMItem.text) lo hi
    if selected ≠ [] then
      let j := String.intercalate "\n" selected
      { s with copied_item := some ⟨j, none, none⟩, clipboard := j }
    else s
  else s

/-- The deletion loop of `_delete_visual_selection`:
`for row in range(end, start-1, -1): if row < len(items):
remove_item(row)` (each call rebuilds the cursor). -/
def popRows (lo : Nat) : Nat → MMState → MMState × List OutEv
  | row, s =>
    let p := if row < s.items.length then remove_item s (row : Int) else (s, [])
    if lo < row then
      let q := popRows lo (row - 1) p.1
      (q.1, p.2 ++ q.2)
    else p

/-- `VimMultimediaList._delete_visual_selection`: pop rows `max` down to
`min` via `remove_item`, then re-select `min`, else the last row, else
leave the rebuilt (cleared) cursor. -/
def delete_visual_selection (s : MMState) : MMState × List OutEv :=
  if s.visual_mode then
    let lo := (min s.visual_start s.visual_end).toNat
    let hi := (max s.visual_start s.visual_end).toNat
    let p := popRows lo hi s
    let c :=
      if (lo : Int) < (p.1.items.length : Int) then setRow p.1.items.length (lo : Int)
      else if 0 < p.1.items.length then
        setRow p.1.items.length ((p.1.items.length : Int) - 1)
      else p.1.cursor
    ({ p.1 with cursor := c }, p.2)
  else (s, [])

/-- `VimMultimediaList._handle_visual_mode_key`. -/
def handle_visual_mode_key (s : MMState) (e : KeyEv) : MMState × List OutEv :=
  match e.key with
  | .keyJ => (visual_move_down s, [])
  | .keyK => (visual_move_up s, [])
  | .keyY => (exit_visual_mode (copy_visual_selection s), [])
  | .keyD => let p := delete_visual_selection s
             (exit_visual_mode p.1, p.2)
  | .keyX => let p := delete_visual_selection s
             (exit_visual_mode p.1, p.2)
  | _ => (s, [])

end VimMM

/-! ## Helper lemmas -/

theorem pyInsert_length (i : Nat) (a : α) (l : List α) :
    (pyInsert i a l).length = l.length + 1 := by
  simp [pyInsert]
  omega

theorem pyInsert_getD {α : Type} (i : Nat) (a : α) (l : List α) (d : α) (h : i ≤ l.length) :
    (pyInsert i a l).getD i d = a := by
  unfold pyInsert
  rw [List.getD_eq_getElem?_getD, List.getElem?_append_right (by simp)]
  simp [List.length_take, Nat.min_eq_left h]

theorem pyInsert_getD_lt {α : Type} (i j : Nat) (a : α) (l : List α) (d : α)
    (hj : j < i) (hl : j < l.length) : (pyInsert i a l).getD j d = l.getD j d := by
  unfold pyInsert
  rw [List.getD_eq_getElem?_getD, List.getElem?_append_left (by simp; omega),
    List.getElem?_take_of_lt hj, List.getD_eq_getElem?_getD]

theorem splitChars_ne_nil (sep : Char) (l : List Char) : splitChars sep l ≠ [] := by
  induction l with
  | nil => simp [splitChars]
  | cons c rest ih =>
    unfold splitChars
    cases hm : splitChars sep rest with
    | nil => simp
    | cons h t => dsimp only; split <;> simp

theorem pySplit_ne_nil (s : String) (sep : Char) : pySplit s sep ≠ [] := by
  unfold pySplit
  simpa using splitChars_ne_nil sep s.data

/-! ## Claim theorems -/

namespace VimList

theorem execute_search_clears (s : ListState) :
    (execute_search s).1.search_results = [] ∧
    (execute_search s).1.current_search_index = -1 ∧
    (execute_search s).1.search_mode = false := by
  unfold execute_search
  by_cases h : s.search_text = ""
  · simp [h, exit_search_mode]
  · simp only [if_neg h]
    cases hm : searchMatches s.search_text s.items <;> simp [hm, exit_search_mode]

/-- C1. The spec claims that after executing a search the ordered match
list is retained so that `n`/`N` cycle through the matches.  In the code
`_execute_search` ends by calling `_exit_search_mode`, which clears
`search_results` and resets the cycle index, so the match list is never
retained: on the model `["a","xa","b","xb"]`, searching for `"x"`
(matches at indices 1 and 3) jumps to index 1, but a subsequent `n`
leaves the cursor at 1 instead of moving to 3 — the first conjunct shows
the clearing is unconditional, the rest evaluate the failing input. -/
theorem C1_search_cycling_dead (s₀ : ListState) :
    ((execute_search s₀).1.search_results = [] ∧
     (execute_search s₀).1.current_search_index = -1) ∧
    (let s := runL (initState ["a", "xa", "b", "xb"] "")
        [.key { key := .slash }, .key { key := .other, text := "x" },
         .key { key := .ret }]
     s.cursor = 1 ∧ s.search_results = [] ∧
     (stepL s (.key { key := .keyN })).1.cursor = 1) := by
  refine ⟨⟨(execute_search_clears s₀).1, (execute_search_clears s₀).2.1⟩, ?_, ?_, ?_⟩ <;> decide

end VimList

/-- C4. Boundary behaviour of delete-current: a table refuses to delete
the last remaining row (and the last remaining column) with a warning
while leaving the model unchanged — indeed every refused table deletion
leaves the model unchanged — whereas a list with a single item deletes
it (0 items, cursor absent) and a single-node tree deletes it (empty
forest, current item absent). -/
theorem C4_last_item_deletion (st : VimTable.TableState) (sl : VimList.ListState)
    (nid : Nat) (txt : String) (exp : Bool) (pd pc : Bool) (nix : Nat)
    (h1row : st.data.length = 1) (h1col : st.columns.length = 1)
    (hl1 : sl.items.length = 1) (hlc : sl.cursor = 0) :
    ((VimTable.delete_current_row st).1.data = st.data ∧
     (VimTable.delete_current_row st).1.columns = st.columns ∧
     (VimTable.delete_current_row st).2 = [.warning "Cannot delete the last remaining row"]) ∧
    ((VimTable.delete_current_column st).1.data = st.data ∧
     (VimTable.delete_current_column st).1.columns = st.columns ∧
     (VimTable.delete_current_column st).2 = [.warning "Cannot delete the last remaining column"]) ∧
    (∀ st' : VimTable.TableState, ¬ (0 ≤ st'.curRow ∧ 1 < st'.data.length) →
      (VimTable.delete_current_row st').1.data = st'.data ∧
      (VimTable.delete_current_row st').1.columns = st'.columns) ∧
    (∀ st' : VimTable.TableState, ¬ (0 ≤ st'.curCol ∧ 1 < st'.columns.length) →
      (VimTable.delete_current_column st').1.data = st'.data ∧
      (VimTable.delete_current_column st').1.columns = st'.columns) ∧
    ((VimList.delete_current_item sl).1.items = [] ∧
     (VimList.delete_current_item sl).1.cursor = -1) ∧
    (let t : VimTree.TreeState :=
       { forest := [.node nid txt exp []], cursor := some nid, next_id := nix,
         pending_delete := pd, pending_copy := pc }
     (VimTree.delete_current_node t).1.forest = [] ∧
     (VimTree.delete_current_node t).1.cursor = none) := by
  refine ⟨?_, ?_, ?_, ?_, ?_, ?_⟩
  · unfold VimTable.delete_current_row
    rw [if_neg (by simp; omega)]
    exact ⟨rfl, rfl, rfl⟩
  · unfold VimTable.delete_current_column
    rw [if_neg (by simp; omega)]
    exact ⟨rfl, rfl, rfl⟩
  · intro st' h
    unfold VimTable.delete_current_row
    rw [if_neg (by simpa using h)]
    exact ⟨rfl, rfl⟩
  · intro st' h
    unfold VimTable.delete_current_column
    rw [if_neg (by simpa using h)]
    exact ⟨rfl, rfl⟩
  · obtain ⟨x, hx⟩ := List.length_eq_one.mp hl1
    unfold VimList.delete_current_item
    rw [if_pos (by rw [hlc, hx]; simp)]
    simp [hx, hlc, VimList.rebuildRow]
  · cases exp <;>
      simp [VimTree.delete_current_node, VimTree.remove_node, VimTree.itemBelow,
        VimTree.itemAbove, VimTree.visibleIds, VimTree.removeId, VimTree.textOf]

/-- Witness for C4 at a concrete table, list and tree. -/
theorem C4_last_item_deletion_witness :
    let st : VimTable.TableState :=
      { columns := ["A"], data := [["1"]], curRow := 0, curCol := 0,
        copied_row := none, copied_cell := none, copied_selection := none,
        pending_delete := false, pending_copy := false, delete_start_time := 0,
        copy_start_time := 0, visual_mode := false, visual_line_mode := false,
        visual_start_row := -1, visual_start_col := -1, visual_end_row := -1,
        visual_end_col := -1, clipboard := "" }
    let sl := VimList.initState ["only"] ""
    (VimTable.delete_current_row st).1.data = st.data ∧
    (VimList.delete_current_item sl).1.items = [] := by
  intro st sl
  have h := C4_last_item_deletion st sl 1 "root" false false false 2
    (by decide) (by decide) (by decide) (by decide)
  exact ⟨h.1.1, h.2.2.2.2.1.1⟩

namespace VimList

/-- C9. The keyboard delete (`dd`/`x`) emits `item_deleted` with the
re-clamped post-deletion cursor: deleting the last position `N-1` of a
list of size `N ≥ 2` emits index `N-2` paired with the removed value
from index `N-1`; when the deleted position is still in bounds after the
deletion, the emitted index equals the removal index; and the
programmatic `remove_item(index)` API always emits the removal index. -/
theorem C9_delete_event_index (s t : ListState) (i : Int)
    (h2 : 2 ≤ s.items.length) (hlast : s.cursor = (s.items.length : Int) - 1)
    (ht0 : 0 ≤ t.cursor) (htl : t.cursor < (t.items.length : Int) - 1)
    (hi0 : 0 ≤ i) (hil : i < (t.items.length : Int)) :
    (delete_current_item s).2 =
      [.deleted ((s.items.length : Int) - 2) (s.items.getD (s.items.length - 1) "")] ∧
    (delete_current_item t).2 = [.deleted t.cursor (t.items.getD t.cursor.toNat "")] ∧
    (remove_item t i).2 = [.deleted i (t.items.getD i.toNat "")] := by
  refine ⟨?_, ?_, ?_⟩
  · unfold delete_current_item
    dsimp only
    rw [if_pos (by constructor <;> omega)]
    have hrow : s.cursor.toNat < s.items.length := by omega
    simp only [List.length_eraseIdx, if_pos hrow]
    rw [if_pos (by omega)]
    have hcn : s.cursor.toNat = s.items.length - 1 := by omega
    rw [hcn]
    simp only [List.cons.injEq, OutEv.deleted.injEq, and_true]
    omega
  · unfold delete_current_item
    dsimp only
    rw [if_pos (by constructor <;> omega)]
    have hrow : t.cursor.toNat < t.items.length := by omega
    simp only [List.length_eraseIdx, if_pos hrow]
    rw [if_neg (by omega)]
    simp only [List.cons.injEq, OutEv.deleted.injEq, and_true]
    omega
  · unfold remove_item
    rw [if_pos ⟨hi0, hil⟩]

/-- Witness for C9: lists `["a","b","c"]` with the cursor at the last
and at a non-last position. -/
theorem C9_delete_event_index_witness :
    (delete_current_item { initState ["a", "b", "c"] "" with cursor := 2 }).2 =
      [.deleted 1 "c"] ∧
    (delete_current_item (initState ["a", "b", "c"] "")).2 = [.deleted 0 "a"] ∧
    (remove_item (initState ["a", "b", "c"] "") 1).2 = [.deleted 1 "b"] := by
  have h := C9_delete_event_index
    { initState ["a", "b", "c"] "" with cursor := 2 }
    (initState ["a", "b", "c"] "") 1
    (by decide) (by decide) (by decide) (by decide) (by decide) (by decide)
  exact ⟨h.1, h.2.1, h.2.2⟩

end VimList

/-- C10. Every insert command (`o`/`O`) of the list, multimedia list and
tree widgets leaves the model unchanged and emits no added event when
the dialog is cancelled or confirmed with a blank (empty or
whitespace-only) value, and inserts the value stripped of surrounding
whitespace otherwise. -/
theorem C10_insert_strips_blank (v : String)
    (sl : VimList.ListState) (sm : VimMM.MMState) (st : VimTree.TreeState)
    (hblank : pyStrip v = "") :
    (VimList.add_item_below sl none = (sl, []) ∧
     VimList.add_item_above sl none = (sl, []) ∧
     VimList.add_item_below sl (some v) = (sl, []) ∧
     VimList.add_item_above sl (some v) = (sl, [])) ∧
    (VimMM.add_item_below sm none = (sm, []) ∧
     VimMM.add_item_above sm none = (sm, []) ∧
     VimMM.add_item_below sm (some v) = (sm, []) ∧
     VimMM.add_item_above sm (some v) = (sm, [])) ∧
    (VimTree.add_child_node_key st none = (st, []) ∧
     VimTree.add_sibling_above_key st none = (st, []) ∧
     VimTree.add_child_node_key st (some v) = (st, []) ∧
     VimTree.add_sibling_above_key st (some v) = (st, [])) ∧

    (∀ (w : String), pyStrip w ≠ "" →
      (VimList.add_item_below sl (some w)).1.items =
        pyInsert (if 0 ≤ sl.cursor then sl.cursor.toNat + 1 else sl.items.length)
          (pyStrip w) sl.items ∧
      (VimList.add_item_below sl (some w)).2 =
        [.added (if 0 ≤ sl.cursor then sl.cursor.toNat + 1 else sl.items.length : Nat)
          (pyStrip w)] ∧
      (VimMM.add_item_below sm (some w)).1.items =
        pyInsert (if 0 ≤ sm.cursor then sm.cursor.toNat + 1 else sm.items.length)
          ⟨pyStrip w, none, none⟩ sm.items ∧
      (VimTree.add_child_node_key st (some w)).2 =
        [.nodeAdded st.next_id (pyStrip w)]) := by
  refine ⟨⟨rfl, rfl, ?_, ?_⟩, ⟨rfl, rfl, ?_, ?_⟩, ⟨rfl, ?_, ?_, ?_⟩, ?_⟩
  · simp [VimList.add_item_below, hblank]
  · simp [VimList.add_item_above, hblank]
  · simp [VimMM.add_item_below, hblank]
  · simp [VimMM.add_item_above, hblank]
  · cases hc : st.cursor <;> simp [VimTree.add_sibling_above_key, hc]
  · simp [VimTree.add_child_node_key, hblank]
  · cases hc : st.cursor <;> simp [VimTree.add_sibling_above_key, hblank, hc]
  · intro w hw
    refine ⟨?_, ?_, ?_, ?_⟩
    · simp [VimList.add_item_below, hw, pyInsert_length]
    · simp [VimList.add_item_below, hw, pyInsert_length]
    · simp [VimMM.add_item_below, VimMM.add_item, hw, apply_ite VimMM.MMState.items]
    · simp [VimTree.add_child_node_key, hw, VimTree.add_child_node]

/-- Witness for C10 at blank input `"  "` and non-blank input `" x "`. -/
theorem C10_insert_strips_blank_witness :
    (VimList.add_item_below (VimList.initState ["a"] "") (some "  ")).1.items = ["a"] ∧
    (VimList.add_item_below (VimList.initState ["a"] "") (some " x ")).1.items = ["a", "x"] := by
  have h := C10_insert_strips_blank "  " (VimList.initState ["a"] "")
    { items := [], cursor := -1 }
    { forest := [], cursor := none, next_id := 1, pending_delete := false, pending_copy := false }
    (by decide)
  refine ⟨by rw [h.1.2.2.1]; rfl, ?_⟩
  have h2 := (h.2.2.2 " x " (by decide)).1
  rw [h2]
  decide

namespace VimTable

theorem truthyRow_pySplit (s : String) (sep : Char) :
    truthyRow (some (pySplit s sep)) = true := by
  cases h : pySplit s sep with
  | nil => exact absurd h (pySplit_ne_nil s sep)
  | cons a t => rfl

set_option maxHeartbeats 1000000

end VimTable

namespace VimMM

/-- The `remove_item` loop of the multimedia list's
`_delete_visual_selection` on an in-bounds range removes exactly the
rows `lo..hi` and emits `item_deleted` for each of them in descending
order, with the values the rows held before the loop started. -/
theorem popRows_spec (lo : Nat) : ∀ (hi : Nat) (s : MMState),
    lo ≤ hi → hi < s.items.length →
    (popRows lo hi s).1.items = s.items.take lo ++ s.items.drop (hi + 1) ∧
    (popRows lo hi s).2 =
      (List.range' lo (hi + 1 - lo)).reverse.map
        (fun r : Nat => OutEv.deleted (r : Int)
          ((s.items.getD r ⟨"", none, none⟩).text)) := by
  intro hi
  induction hi with
  | zero =>
    intro s hlo hlen
    have h0 : lo = 0 := by omega
    subst h0
    unfold popRows
    rw [if_pos hlen, if_neg (by omega : ¬ (0 : Nat) < 0)]
    unfold remove_item
    rw [if_pos (And.intro (by omega) (by omega))]
    dsimp only
    simp only [Int.toNat_natCast]
    refine ⟨?_, rfl⟩
    rw [List.eraseIdx_eq_take_drop_succ]
  | succ n ih =>
    intro s hlo hlen
    unfold popRows
    rw [if_pos hlen]
    by_cases hl : lo < n + 1
    · rw [if_pos hl]
      unfold remove_item
      rw [if_pos (And.intro (by omega) (by omega))]
      dsimp only
      simp only [Int.toNat_natCast, Nat.add_sub_cancel]
      have hlen' : n < (s.items.eraseIdx (n + 1)).length := by
        rw [List.length_eraseIdx, if_pos (by omega)]
        omega
      have hih := ih { s with items := s.items.eraseIdx (n + 1)
                              cursor := VimList.rebuildRow s.cursor
                                (s.items.eraseIdx (n + 1)).length }
        (by omega) hlen'
      dsimp only at hih
      rw [hih.1, hih.2]
      have htd := List.eraseIdx_eq_take_drop_succ s.items (n + 1)
      have hlt : (s.items.take (n + 1)).length = n + 1 := by
        rw [List.length_take]
        omega
      refine ⟨?_, ?_⟩
      · rw [htd]
        rw [List.take_append_of_le_length (by omega)]
        rw [List.take_take]
        have hdl := List.drop_left (s.items.take (n + 1)) (s.items.drop (n + 1 + 1))
        rw [hlt] at hdl
        rw [hdl, Nat.min_eq_left (by omega)]
      · have hrange : List.range' lo (n + 1 + 1 - lo) =
            List.range' lo (n + 1 - lo) ++ [n + 1] := by
          have hc := List.range'_1_concat lo (n + 1 - lo)
          rw [show lo + (n + 1 - lo) = n + 1 from by omega] at hc
          rw [show n + 1 + 1 - lo = n + 1 - lo + 1 from by omega]
          exact hc
        rw [hrange]
        rw [List.reverse_append]
        simp only [List.reverse_cons, List.reverse_nil, List.nil_append,
          List.singleton_append, List.map_cons]
        congr 1
        apply List.map_congr_left
        intro r hr
        have hrmem : r ∈ List.range' lo (n + 1 - lo) := List.mem_reverse.mp hr
        have hrb := List.mem_range'.mp hrmem
        have hr1 : r < n + 1 := by omega
        rw [htd]
        rw [List.getD_eq_getElem?_getD, List.getElem?_append_left (by omega),
          List.getElem?_take_of_lt hr1, ← List.getD_eq_getElem?_getD]
    · rw [if_neg hl]
      have h0 : lo = n + 1 := by omega
      subst h0
      unfold remove_item
      rw [if_pos (And.intro (by omega) (by omega))]
      dsimp only
      simp only [Int.toNat_natCast]
      refine ⟨?_, ?_⟩
      · rw [List.eraseIdx_eq_take_drop_succ]
      · rw [show n + 1 + 1 - (n + 1) = 1 from by omega]
        rfl

end VimMM

namespace VimList

/-- The pop loop of `_delete_visual_selection` on an in-bounds range
removes exactly the rows `lo..hi` and emits `item_deleted` for each of
them in descending order, with the values the rows held before the
loop started. -/
theorem popFrom_spec (lo : Nat) : ∀ (hi : Nat) (items : List String),
    lo ≤ hi → hi < items.length →
    popFrom lo hi items =
      (items.take lo ++ items.drop (hi + 1),
       (List.range' lo (hi + 1 - lo)).reverse.map
         (fun r : Nat => OutEv.deleted (r : Int) (items.getD r ""))) := by
  intro hi
  induction hi with
  | zero =>
    intro items hlo hlen
    have h0 : lo = 0 := by omega
    subst h0
    unfold popFrom
    rw [if_pos hlen, if_neg (by omega)]
    rw [List.eraseIdx_eq_take_drop_succ]
    rfl
  | succ n ih =>
    intro items hlo hlen
    unfold popFrom
    rw [if_pos hlen]
    by_cases hl : lo < n + 1
    · rw [if_pos hl]
      simp only [Nat.add_sub_cancel]
      have hlen' : n < (items.eraseIdx (n + 1)).length := by
        rw [List.length_eraseIdx, if_pos hlen]
        omega
      rw [ih (items.eraseIdx (n + 1)) (by omega) hlen']
      have htd := List.eraseIdx_eq_take_drop_succ items (n + 1)
      have hlt : (items.take (n + 1)).length = n + 1 := by
        rw [List.length_take]
        omega
      refine Prod.ext ?_ ?_
      · dsimp only
        rw [htd]
        rw [List.take_append_of_le_length (by omega)]
        rw [List.take_take]
        have hdrop : (items.take (n + 1) ++ items.drop (n + 1 + 1)).drop (n + 1) =
            items.drop (n + 1 + 1) := by
          have hdl := List.drop_left (items.take (n + 1)) (items.drop (n + 1 + 1))
          rwa [hlt] at hdl
        rw [hdrop, Nat.min_eq_left (by omega)]
      · dsimp only
        have hrange : List.range' lo (n + 1 + 1 - lo) =
            List.range' lo (n + 1 - lo) ++ [n + 1] := by
          have hc := List.range'_1_concat lo (n + 1 - lo)
          rw [show lo + (n + 1 - lo) = n + 1 from by omega] at hc
          rw [show n + 1 + 1 - lo = n + 1 - lo + 1 from by omega]
          exact hc
        rw [hrange]
        rw [List.reverse_append]
        simp only [List.reverse_cons, List.reverse_nil, List.nil_append,
          List.singleton_append, List.map_cons]
        congr 1
        apply List.map_congr_left
        intro r hr
        have hrmem : r ∈ List.range' lo (n + 1 - lo) := List.mem_reverse.mp hr
        have hrb := List.mem_range'.mp hrmem
        have hr1 : r < n + 1 := by omega
        congr 1
        rw [htd]
        rw [List.getD_eq_getElem?_getD, List.getElem?_append_left (by omega),
          List.getElem?_take_of_lt hr1, ← List.getD_eq_getElem?_getD]
    · rw [if_neg hl]
      have h0 : lo = n + 1 := by omega
      subst h0
      rw [List.eraseIdx_eq_take_drop_succ]
      have : n + 1 + 1 - (n + 1) = 1 := by omega
      rw [this]
      rfl

/-- The collection loop of `_copy_visual_selection` on an in-bounds
range yields exactly the slice `items[lo..hi]`. -/
theorem selRange_aux (items : List String) : ∀ (n lo : Nat), lo + n ≤ items.length →
    (List.range' lo n).filterMap
      (fun r : Nat => if r < items.length then some (items.getD r "") else none) =
      (items.take (lo + n)).drop lo := by
  intro n
  induction n with
  | zero =>
    intro lo h
    rw [List.range']
    rw [List.drop_eq_nil_of_le (by rw [List.length_take]; omega)]
    rfl
  | succ n ih =>
    intro lo h
    rw [List.range'_succ lo n 1]
    rw [List.filterMap_cons]
    rw [if_pos (by omega : lo < items.length)]
    rw [ih (lo + 1) (by omega)]
    rw [show lo + 1 + n = lo + (n + 1) from by omega]
    have hlt : lo < (items.take (lo + (n + 1))).length := by
      rw [List.length_take]
      omega
    rw [List.drop_eq_getElem_cons hlt, List.getElem_take,
      ← List.getD_eq_getElem items "" (show lo < items.length from by omega)]

theorem selRange_spec (items : List String) (lo hi : Nat)
    (hle : lo ≤ hi) (hlen : hi < items.length) :
    selRange items lo hi = (items.take (hi + 1)).drop lo := by
  unfold selRange
  rw [selRange_aux items (hi + 1 - lo) lo (by omega)]
  congr 2
  omega

/-- C7 counterexample.  In the table's visual mode (anchor row 0, cursor
row 1 over data `[["a"],["b"]]`), pressing `d` leaves the data unchanged
and merely exits visual mode, although the claim requires the normalized
range (both rows) to be removed.  In the tree's visual mode (anchor node
0, cursor node 1 over two top-level nodes), pressing `d` removes only
the current node 1, leaving node 0 — the anchor of the two-node range —
in place. -/
theorem C7_counterexample :
    let st : VimTable.TableState :=
      { columns := ["A"], data := [["a"], ["b"]], curRow := 1, curCol := 0,
        copied_row := none, copied_cell := none, copied_selection := none,
        pending_delete := false, pending_copy := false, delete_start_time := 0,
        copy_start_time := 0, visual_mode := true, visual_line_mode := false,
        visual_start_row := 0, visual_start_col := 0, visual_end_row := 1,
        visual_end_col := 0, clipboard := "" }
    let ts : VimTree.TreeState :=
      { forest := [.node 0 "a" false [], .node 1 "b" false []],
        cursor := some 1, next_id := 2, pending_delete := false,
        pending_copy := false, visual_mode := true, visual_start := some 0,
        visual_end := some 1 }
    ((VimTable.handle_visual_mode_key st { key := .keyD }).1.data = [["a"], ["b"]] ∧
     ¬ (VimTable.handle_visual_mode_key st { key := .keyD }).1.data = [] ∧
     (VimTable.handle_visual_mode_key st { key := .keyD }).1.visual_mode = false) ∧
    ((VimTree.handle_visual_mode_key ts { key := .keyD }).1.forest =
       [.node 0 "a" false []] ∧
     (VimTree.handle_visual_mode_key ts { key := .keyD }).1.forest.length = 1 ∧
     (VimTree.handle_visual_mode_key ts { key := .keyD }).1.visual_mode = false) := by
  refine ⟨by decide, ?_, ?_, ?_⟩ <;>
    simp [VimTree.handle_visual_mode_key, VimTree.delete_visual_selection,
      VimTree.delete_current_node, VimTree.remove_node, VimTree.removeId,
      VimTree.itemBelow, VimTree.itemAbove, VimTree.visibleIds,
      VimTree.containsId, VimTree.textOf, VimTree.exit_visual_mode]

/-- C7 as amended.  In the list and multimedia-list widgets a
visual-mode `d` removes exactly the rows of the normalized `[min,max]`
visual range, in descending order (one `item_deleted` per row), and
exits visual mode; a visual-mode `y` yanks the newline-joined values of
that range, leaves the model unchanged and exits visual mode.  In the
table widget a visual-mode `d` performs no deletion at all: it only
exits visual mode.  In the tree widget visual `d` and `y` act on the
current node only, not on the visual range: `d` removes exactly the
current node's subtree and `y` yanks a deep copy of the current node. -/
theorem C7_visual_range_operations (sl : ListState) (st : VimTable.TableState)
    (ms : VimMM.MMState) (ts : VimTree.TreeState) (cid : Nat) (n : VimTree.TNode)
    (hv : sl.visual_mode = true)
    (h0s : 0 ≤ sl.visual_start) (h0e : 0 ≤ sl.visual_end)
    (hhi : max sl.visual_start sl.visual_end < (sl.items.length : Int))
    (hmv : ms.visual_mode = true)
    (h0sm : 0 ≤ ms.visual_start) (h0em : 0 ≤ ms.visual_end)
    (hhim : max ms.visual_start ms.visual_end < (ms.items.length : Int))
    (htv : ts.visual_mode = true) (hts : ts.visual_start.isSome = true)
    (htc : ts.cursor = some cid)
    (hfind : VimTree.findNode ts.forest cid = some n) :
    (let lo := (min sl.visual_start sl.visual_end).toNat
     let hi := (max sl.visual_start sl.visual_end).toNat
     (handle_visual_mode_key sl { key := .keyD }).1.items =
        sl.items.take lo ++ sl.items.drop (hi + 1) ∧
     (handle_visual_mode_key sl { key := .keyD }).1.visual_mode = false ∧
     (handle_visual_mode_key sl { key := .keyD }).2 =
        (List.range' lo (hi + 1 - lo)).reverse.map
          (fun r : Nat => OutEv.deleted (r : Int) (sl.items.getD r "")) ∧
     (handle_visual_mode_key sl { key := .keyY }).1.copied_item =
        some (String.intercalate "\n" ((sl.items.take (hi + 1)).drop lo)) ∧
     (handle_visual_mode_key sl { key := .keyY }).1.items = sl.items ∧
     (handle_visual_mode_key sl { key := .keyY }).1.visual_mode = false) ∧
    VimTable.handle_visual_mode_key st { key := .keyD } =
      (VimTable.exit_visual_mode st, true) ∧
    (VimTable.exit_visual_mode st).data = st.data ∧
    (let lo := (min ms.visual_start ms.visual_end).toNat
     let hi := (max ms.visual_start ms.visual_end).toNat
     (VimMM.handle_visual_mode_key ms { key := .keyD }).1.items =
        ms.items.take lo ++ ms.items.drop (hi + 1) ∧
     (VimMM.handle_visual_mode_key ms { key := .keyD }).1.visual_mode = false ∧
     (VimMM.handle_visual_mode_key ms { key := .keyD }).2 =
        (List.range' lo (hi + 1 - lo)).reverse.map
          (fun r : Nat => OutEv.deleted (r : Int)
            ((ms.items.getD r ⟨"", none, none⟩).text)) ∧
     (VimMM.handle_visual_mode_key ms { key := .keyY }).1.copied_item =
        some ⟨String.intercalate "\n"
          (((ms.items.map VimMM.MMItem.text).take (hi + 1)).drop lo), none, none⟩ ∧
     (VimMM.handle_visual_mode_key ms { key := .keyY }).1.items = ms.items ∧
     (VimMM.handle_visual_mode_key ms { key := .keyY }).1.visual_mode = false) ∧
    ((VimTree.handle_visual_mode_key ts { key := .keyD }).1.forest =
        VimTree.removeId ts.forest cid ∧
     (VimTree.handle_visual_mode_key ts { key := .keyD }).1.visual_mode = false ∧
     (VimTree.handle_visual_mode_key ts { key := .keyY }).1.copied_item =
        some (VimTree.copy_tree_item n) ∧
     (VimTree.handle_visual_mode_key ts { key := .keyY }).1.forest = ts.forest ∧
     (VimTree.handle_visual_mode_key ts { key := .keyY }).1.visual_mode = false) := by
  have hle : (min sl.visual_start sl.visual_end).toNat ≤
      (max sl.visual_start sl.visual_end).toNat := by omega
  have hlen : (max sl.visual_start sl.visual_end).toNat < sl.items.length := by omega
  have hpop := popFrom_spec (min sl.visual_start sl.visual_end).toNat
    (max sl.visual_start sl.visual_end).toNat sl.items hle hlen
  have hsel := selRange_spec sl.items (min sl.visual_start sl.visual_end).toNat
    (max sl.visual_start sl.visual_end).toNat hle hlen
  have hlem : (min ms.visual_start ms.visual_end).toNat ≤
      (max ms.visual_start ms.visual_end).toNat := by omega
  have hlenm : (max ms.visual_start ms.visual_end).toNat < ms.items.length := by
    omega
  have hpopm := VimMM.popRows_spec (min ms.visual_start ms.visual_end).toNat
    (max ms.visual_start ms.visual_end).toNat ms hlem hlenm
  have hselm := selRange_spec (ms.items.map VimMM.MMItem.text)
    (min ms.visual_start ms.visual_end).toNat
    (max ms.visual_start ms.visual_end).toNat hlem
    (by rw [List.length_map]; omega)
  refine ⟨⟨?_, ?_, ?_, ?_, ?_, ?_⟩, rfl, rfl, ⟨?_, ?_, ?_, ?_, ?_, ?_⟩,
    ?_, ?_, ?_, ?_, ?_⟩
  · show (exit_visual_mode (delete_visual_selection sl).1).items = _
    unfold delete_visual_selection
    rw [if_pos hv]
    simp only [hpop]
    rfl
  · show (exit_visual_mode (delete_visual_selection sl).1).visual_mode = false
    rfl
  · show (delete_visual_selection sl).2 = _
    unfold delete_visual_selection
    rw [if_pos hv]
    simp only [hpop]
  · show (exit_visual_mode (copy_visual_selection sl)).copied_item = _
    unfold copy_visual_selection
    rw [if_pos hv]
    simp only [hsel]
    rw [if_pos (by
      intro hnil
      have hlnil := congrArg List.length hnil
      rw [List.length_drop, List.length_take] at hlnil
      simp only [List.length_nil] at hlnil
      omega)]
    rfl
  · show (exit_visual_mode (copy_visual_selection sl)).items = sl.items
    unfold copy_visual_selection
    rw [if_pos hv]
    simp only [hsel]
    split_ifs <;> rfl
  · show (exit_visual_mode (copy_visual_selection sl)).visual_mode = false
    rfl
  · show (VimMM.exit_visual_mode (VimMM.delete_visual_selection ms).1).items = _
    unfold VimMM.delete_visual_selection
    rw [if_pos hmv]
    dsimp only
    rw [hpopm.1]
    rfl
  · show (VimMM.exit_visual_mode (VimMM.delete_visual_selection ms).1).visual_mode
      = false
    rfl
  · show (VimMM.delete_visual_selection ms).2 = _
    unfold VimMM.delete_visual_selection
    rw [if_pos hmv]
    dsimp only
    rw [hpopm.2]
  · show (VimMM.exit_visual_mode (VimMM.copy_visual_selection ms)).copied_item = _
    unfold VimMM.copy_visual_selection
    rw [if_pos hmv]
    simp only [hselm]
    rw [if_pos (by
      intro hnil
      have hlnil := congrArg List.length hnil
      rw [List.length_drop, List.length_take, List.length_map] at hlnil
      simp only [List.length_nil] at hlnil
      omega)]
    rfl
  · show (VimMM.exit_visual_mode (VimMM.copy_visual_selection ms)).items = ms.items
    unfold VimMM.copy_visual_selection
    rw [if_pos hmv]
    simp only [hselm]
    split_ifs <;> rfl
  · show (VimMM.exit_visual_mode (VimMM.copy_visual_selection ms)).visual_mode
      = false
    rfl
  · show (VimTree.exit_visual_mode (VimTree.delete_visual_selection ts).1).forest = _
    unfold VimTree.delete_visual_selection
    rw [if_pos ⟨htv, hts⟩]
    unfold VimTree.delete_current_node
    dsimp only
    rw [htc]
    dsimp only
    unfold VimTree.remove_node
    rfl
  · show (VimTree.exit_visual_mode (VimTree.delete_visual_selection ts).1).visual_mode
      = false
    rfl
  · show (VimTree.exit_visual_mode (VimTree.copy_visual_selection ts)).copied_item = _
    unfold VimTree.copy_visual_selection
    rw [if_pos ⟨htv, hts⟩]
    unfold VimTree.copy_current_node
    dsimp only
    rw [htc]
    dsimp only
    rw [hfind]
    rfl
  · show (VimTree.exit_visual_mode (VimTree.copy_visual_selection ts)).forest
      = ts.forest
    unfold VimTree.copy_visual_selection
    rw [if_pos ⟨htv, hts⟩]
    unfold VimTree.copy_current_node
    dsimp only
    rw [htc]
    dsimp only
    rw [hfind]
    rfl
  · show (VimTree.exit_visual_mode (VimTree.copy_visual_selection ts)).visual_mode
      = false
    rfl

/-- Witness for C7: list `["a","b","c"]` in visual mode over rows 0-1,
and a concrete table state. -/
theorem C7_visual_range_operations_witness :
    let sl : ListState :=
      { initState ["a", "b", "c"] "" with
        cursor := 1
        visual_mode := true
        visual_start := 0
        visual_end := 1 }
    let st : VimTable.TableState :=
      { columns := ["A"]
        data := [["a"], ["b"]]
        curRow := 1
        curCol := 0
        copied_row := none
        copied_cell := none
        copied_selection := none
        pending_delete := false
        pending_copy := false
        delete_start_time := 0
        copy_start_time := 0
        visual_mode := true
        visual_line_mode := false
        visual_start_row := 0
        visual_start_col := 0
        visual_end_row := 1
        visual_end_col := 0
        clipboard := "" }
    let ms : VimMM.MMState :=
      { items := [⟨"a", none, none⟩, ⟨"b", none, none⟩, ⟨"c", none, none⟩]
        cursor := 1
        visual_mode := true
        visual_start := 0
        visual_end := 1 }
    let ts : VimTree.TreeState :=
      { forest := [.node 0 "x" false [], .node 1 "y" false []]
        cursor := some 1
        next_id := 2
        pending_delete := false
        pending_copy := false
        visual_mode := true
        visual_start := some 0
        visual_end := some 1 }
    (handle_visual_mode_key sl { key := .keyD }).1.items = ["c"] ∧
    (handle_visual_mode_key sl { key := .keyY }).1.copied_item = some "a\nb" ∧
    (VimTable.exit_visual_mode st).data = st.data ∧
    (VimMM.handle_visual_mode_key ms { key := .keyD }).1.items =
      [⟨"c", none, none⟩] ∧
    (VimMM.handle_visual_mode_key ms { key := .keyY }).1.copied_item =
      some ⟨"a\nb", none, none⟩ ∧
    (VimTree.handle_visual_mode_key ts { key := .keyY }).1.copied_item =
      some (.mk "y" []) := by
  intro sl st ms ts
  have h := C7_visual_range_operations sl st ms ts 1 (.node 1 "y" false [])
    (by decide) (by decide) (by decide) (by decide)
    (by decide) (by decide) (by decide) (by decide)
    (by decide) (by decide) (by decide)
    (by simp [VimTree.findNode])
  refine ⟨?_, ?_, h.2.2.1, ?_, ?_, ?_⟩
  · rw [h.1.1]
    decide
  · rw [h.1.2.2.2.1]
    decide
  · rw [h.2.2.2.1.1]
    decide
  · rw [h.2.2.2.1.2.2.2.1]
    decide
  · rw [h.2.2.2.2.2.2.1]
    simp [VimTree.copy_tree_item, VimTree.copy_forest]

/-- C2: with a clean list state (no mode, no pending chord), pressing
`d` only arms the delete chord; if more than 1.0 s elapses, a second
`d` deletes nothing and merely re-arms the chord, and the timer sweep
likewise drops the chord without deleting; a second `d` within the
window deletes exactly one item (the current one); by contrast, an
expired copy chord is committed by the timer sweep as a single-item
yank of the current item. -/
theorem C2_chord_timeout (s : ListState) (t1 t2 t3 : ℚ)
    (hs : s.search_mode = false) (hv : s.visual_mode = false)
    (hpd : s.pending_delete = false) (hpc : s.pending_copy = false)
    (hpg : s.pending_g = none)
    (hc0 : 0 ≤ s.cursor) (hclen : s.cursor < (s.items.length : Int))
    (hexp : 1 < t2 - t1) (hin : ¬ 1 < t3 - t1) :
    (stepL s (.key { key := .keyD, time := t1 })).1
      = { s with pending_delete := true, delete_start_time := t1 } ∧
    ((stepL { s with pending_delete := true, delete_start_time := t1 }
        (.key { key := .keyD, time := t2 })).1.items = s.items ∧
     (stepL { s with pending_delete := true, delete_start_time := t1 }
        (.key { key := .keyD, time := t2 })).2 = [] ∧
     (stepL { s with pending_delete := true, delete_start_time := t1 }
        (.key { key := .keyD, time := t2 })).1.pending_delete = true ∧
     (stepL { s with pending_delete := true, delete_start_time := t1 }
        (.key { key := .keyD, time := t2 })).1.delete_start_time = t2) ∧
    ((stepL { s with pending_delete := true, delete_start_time := t1 }
        (.tick t2)).1.items = s.items ∧
     (stepL { s with pending_delete := true, delete_start_time := t1 }
        (.tick t2)).1.pending_delete = false) ∧
    ((stepL { s with pending_delete := true, delete_start_time := t1 }
        (.key { key := .keyD, time := t3 })).1.items
          = s.items.eraseIdx s.cursor.toNat ∧
     (stepL { s with pending_delete := true, delete_start_time := t1 }
        (.key { key := .keyD, time := t3 })).1.items.length
          = s.items.length - 1 ∧
     (stepL { s with pending_delete := true, delete_start_time := t1 }
        (.key { key := .keyD, time := t3 })).1.pending_delete = false) ∧
    ((stepL s (.key { key := .keyY, time := t1 })).1
      = { s with pending_copy := true, copy_start_time := t1 } ∧
     (stepL { s with pending_copy := true, copy_start_time := t1 }
        (.tick t2)).1.copied_item = some (s.items.getD s.cursor.toNat "") ∧
     (stepL { s with pending_copy := true, copy_start_time := t1 }
        (.tick t2)).1.items = s.items ∧
     (stepL { s with pending_copy := true, copy_start_time := t1 }
        (.tick t2)).1.pending_copy = false) := by
  have hlen0 : 0 < s.items.length := by omega
  refine ⟨?_, ?_, ?_, ?_, ?_⟩
  · simp [stepL, handle_key_event, hs, hpd, hpc, handle_navigation_key, hv]
  · simp [stepL, handle_key_event, hs, hpd, hpc, hv, hexp,
      handle_navigation_key]
  · simp [stepL, check_pending_operations, hpc, hpg, hexp]
  · simp [stepL, handle_key_event, hs, hpd, hpc, hv, hin,
      handle_navigation_key, delete_current_item, hc0, hlen0,
      List.length_eraseIdx]
    omega
  · refine ⟨?_, ?_⟩
    · simp [stepL, handle_key_event, hs, hpd, hpc, handle_navigation_key, hv]
    · simp [stepL, check_pending_operations, hpd, hpg, hexp,
        copy_current_item, hc0, hclen]


/-- Witness for C2 on the list `["a","b"]` with the chord armed at
time 0: a second `d` at time 2 deletes nothing, a second `d` at time 1
deletes the current item, and the timer sweep at time 2 commits an
expired copy chord as a yank of `"a"`. -/
theorem C2_chord_timeout_witness :
    let s := initState ["a", "b"] ""
    (stepL { s with pending_delete := true, delete_start_time := 0 }
        (.key { key := .keyD, time := 2 })).1.items = ["a", "b"] ∧
    (stepL { s with pending_delete := true, delete_start_time := 0 }
        (.key { key := .keyD, time := 1 })).1.items = ["b"] ∧
    (stepL { s with pending_copy := true, copy_start_time := 0 }
        (.tick 2)).1.copied_item = some "a" := by
  intro s
  have h := C2_chord_timeout s 0 2 1 rfl rfl rfl rfl rfl (by decide) (by decide)
    (by simp) (by simp)
  refine ⟨?_, ?_, ?_⟩
  · rw [h.2.1.1]
    rfl
  · rw [h.2.2.2.1.1]
    rfl
  · rw [h.2.2.2.2.2.1]
    rfl


/-- `_paste_below` with a non-empty register and an in-bounds cursor:
the register value is inserted right below the cursor, the cursor moves
onto the inserted row, and the register is left intact. -/
theorem paste_below_register (t : ListState) (v : String)
    (hreg : t.copied_item = some v) (h0 : 0 ≤ t.cursor)
    (hlt : t.cursor < (t.items.length : Int)) :
    (paste_below t).1 = { t with
      items := pyInsert (t.cursor.toNat + 1) v t.items
      copied_item := some v
      cursor := ((t.cursor.toNat + 1 : Nat) : Int) } ∧
    (paste_below t).2 = [.added ((t.cursor.toNat + 1 : Nat) : Int) v] := by
  unfold paste_below
  rw [hreg]
  dsimp only
  rw [if_pos h0]
  have hlt2 : t.cursor.toNat + 1 < (pyInsert (t.cursor.toNat + 1) v t.items).length := by
    rw [pyInsert_length]
    omega
  rw [if_pos hlt2]
  unfold setRow
  rw [if_pos (by
    constructor
    · omega
    · rw [pyInsert_length]
      omega)]
  exact ⟨rfl, rfl⟩

end VimList

namespace VimTable

/-- `_paste_row` with empty selection/cell registers and a clipboard
holding a round-tripping tab-serialized row: the decoded row is
inserted right below the cursor, the cursor moves onto the inserted
row, and no register is consumed. -/
theorem paste_row_register (t : TableState) (row : List String)
    (hsel : t.copied_selection = none) (hcell : t.copied_cell = none)
    (hclip : pyStrip t.clipboard = tabJoin row)
    (hnl : pyHasChar (tabJoin row) '\n' = false)
    (htab : pyHasChar (tabJoin row) '\t' = true)
    (hsplit : pySplit (tabJoin row) '\t' = row)
    (hlenr : row.length = t.columns.length)
    (h0r : 0 ≤ t.curRow) (hrlt : t.curRow < (t.data.length : Int))
    (h0c : 0 ≤ t.curCol) (hclt : t.curCol < (t.columns.length : Int)) :
    (paste_row t).1 = { t with
      data := pyInsert (t.curRow.toNat + 1) row t.data
      curRow := ((t.curRow.toNat + 1 : Nat) : Int) } ∧
    (paste_row t).2 = [] := by
  have hne : tabJoin row ≠ "" := by
    intro h
    rw [h] at htab
    revert htab
    decide
  unfold paste_row
  rw [hsel, hcell]
  dsimp only
  simp only [Option.isSome_none, Bool.false_eq_true, if_false]
  rw [hclip]
  rw [if_neg (by
    intro hcon
    rw [hnl] at hcon
    exact absurd hcon.2 (by simp))]
  rw [if_neg (by
    intro hcon
    rw [htab] at hcon
    exact absurd rfl hcon.2)]
  rw [if_pos hne, hsplit]
  have hrne : row ≠ [] := by
    intro h
    rw [h] at hsplit
    rw [h] at hne
    exact pySplit_ne_nil (tabJoin []) '\t' hsplit
  obtain ⟨a, rs, hrow⟩ := List.exists_cons_of_ne_nil hrne
  have htr : truthyRow (some row) = true := by
    rw [hrow]
    rfl
  have hp2 : ¬ (¬ truthyRow (some row) = true ∧ truthyRow t.copied_row = true) := by
    rw [htr]
    simp
  rw [if_neg hp2, if_pos htr]
  simp only [Option.getD_some]
  have hc1 : ¬ (row.length < t.columns.length) := by omega
  have hc2 : ¬ (t.columns.length < row.length) := by omega
  rw [if_neg hc1, if_neg hc2]
  rw [if_pos h0r]
  have hlt2 : t.curRow.toNat + 1 < (pyInsert (t.curRow.toNat + 1) row t.data).length := by
    rw [pyInsert_length]
    omega
  rw [if_pos hlt2]
  unfold rebuildCell
  rw [if_pos ⟨h0r, h0c⟩]
  rw [if_pos (by
    constructor
    · rw [pyInsert_length]
      omega
    · omega)]
  unfold setCell
  rw [if_pos (by
    refine ⟨by omega, ?_, h0c, hclt⟩
    rw [pyInsert_length]
    omega)]
  exact ⟨rfl, trivial⟩

/-- Counterexample to C3 (table half): on a one-column table the
clipboard serialization of the yanked row contains no tab, so `p`
after `yy` takes `_paste_row`'s scalar-clipboard branch and writes a
cell instead of inserting a row: the row count stays `2` instead of
growing to `3`. -/
theorem C3_counterexample :
    let st : TableState :=
      { columns := ["A"], data := [["x"], ["y"]], curRow := 0, curCol := 0,
        copied_row := none, copied_cell := none, copied_selection := none,
        pending_delete := false, pending_copy := false, delete_start_time := 0,
        copy_start_time := 0, visual_mode := false, visual_line_mode := false,
        visual_start_row := -1, visual_start_col := -1, visual_end_row := -1,
        visual_end_col := -1, clipboard := "" }
    (copy_current_row st).copied_row = some ["x"] ∧
    (paste_row (copy_current_row st)).1.data.length = 2 := by
  constructor
  · decide
  · decide

/-- C3 (amended): yank-current followed by paste-below inserts a copy
of the yanked value right below the cursor without consuming the
register, and a second paste inserts a second identical copy; for the
list this holds for every valid cursor, while for the table it
additionally requires that the yanked row tab-serializes reversibly
(no newline, at least one tab, strip- and split-stable, cell count
equal to the column count) and that the selection register is empty. -/
theorem C3_yank_paste (sl : VimList.ListState)
    (hl0 : 0 ≤ sl.cursor) (hllt : sl.cursor < (sl.items.length : Int))
    (t : TableState) (row : List String)
    (hrowdef : t.data.getD t.curRow.toNat [] = row)
    (hsel : t.copied_selection = none)
    (hnl : pyHasChar (tabJoin row) '\n' = false)
    (htab : pyHasChar (tabJoin row) '\t' = true)
    (hstrip : pyStrip (tabJoin row) = tabJoin row)
    (hsplit : pySplit (tabJoin row) '\t' = row)
    (hlenr : row.length = t.columns.length)
    (h0r : 0 ≤ t.curRow) (hrlt : t.curRow < (t.data.length : Int))
    (h0c : 0 ≤ t.curCol) (hclt : t.curCol < (t.columns.length : Int)) :
    ((VimList.copy_current_item sl).copied_item
        = some (sl.items.getD sl.cursor.toNat "") ∧
     (VimList.paste_below (VimList.copy_current_item sl)).1.items.length
        = sl.items.length + 1 ∧
     (VimList.paste_below (VimList.copy_current_item sl)).1.items.getD
        (sl.cursor.toNat + 1) "" = sl.items.getD sl.cursor.toNat "" ∧
     (VimList.paste_below (VimList.copy_current_item sl)).1.copied_item
        = some (sl.items.getD sl.cursor.toNat "") ∧
     (VimList.paste_below (VimList.paste_below
        (VimList.copy_current_item sl)).1).1.items
        = pyInsert (sl.cursor.toNat + 2) (sl.items.getD sl.cursor.toNat "")
            (pyInsert (sl.cursor.toNat + 1) (sl.items.getD sl.cursor.toNat "")
              sl.items) ∧
     (VimList.paste_below (VimList.paste_below
        (VimList.copy_current_item sl)).1).1.items.getD
        (sl.cursor.toNat + 1) "" = sl.items.getD sl.cursor.toNat "" ∧
     (VimList.paste_below (VimList.paste_below
        (VimList.copy_current_item sl)).1).1.items.getD
        (sl.cursor.toNat + 2) "" = sl.items.getD sl.cursor.toNat "") ∧
    ((copy_current_row t).copied_row = some row ∧
     (paste_row (copy_current_row t)).1.data.length = t.data.length + 1 ∧
     (paste_row (copy_current_row t)).1.data.getD (t.curRow.toNat + 1) []
        = row ∧
     (paste_row (copy_current_row t)).1.copied_row = some row ∧
     (paste_row (paste_row (copy_current_row t)).1).1.data
        = pyInsert (t.curRow.toNat + 2) row
            (pyInsert (t.curRow.toNat + 1) row t.data) ∧
     (paste_row (paste_row (copy_current_row t)).1).1.data.getD
        (t.curRow.toNat + 1) [] = row ∧
     (paste_row (paste_row (copy_current_row t)).1).1.data.getD
        (t.curRow.toNat + 2) [] = row) := by
  have hcnat : sl.cursor.toNat < sl.items.length := by omega
  have hrnat : t.curRow.toNat < t.data.length := by omega
  have hs1 : VimList.copy_current_item sl
      = { sl with pending_copy := false
                  copied_item := some (sl.items.getD sl.cursor.toNat "")
                  clipboard := sl.items.getD sl.cursor.toNat "" } := by
    unfold VimList.copy_current_item
    dsimp only
    rw [if_pos ⟨hl0, hllt⟩]
  have ht1 : copy_current_row t
      = { t with pending_copy := false
                 copied_row := some row
                 copied_cell := none
                 clipboard := tabJoin row } := by
    unfold copy_current_row
    dsimp only
    rw [if_pos ⟨h0r, hrlt⟩, hrowdef]
  have hc1 : (VimList.copy_current_item sl).copied_item
      = some (sl.items.getD sl.cursor.toNat "") := by
    rw [hs1]
  have hc2 : (VimList.copy_current_item sl).cursor = sl.cursor := by
    rw [hs1]
  have hc3 : (VimList.copy_current_item sl).items = sl.items := by
    rw [hs1]
  have hl2 := VimList.paste_below_register (VimList.copy_current_item sl)
    (sl.items.getD sl.cursor.toNat "") hc1
    (by rw [hc2]; exact hl0) (by rw [hc2, hc3]; exact hllt)
  have hd1 : (VimList.paste_below (VimList.copy_current_item sl)).1.copied_item
      = some (sl.items.getD sl.cursor.toNat "") := by
    rw [hl2.1]
  have hd2 : (VimList.paste_below (VimList.copy_current_item sl)).1.cursor
      = (((VimList.copy_current_item sl).cursor.toNat + 1 : Nat) : Int) := by
    rw [hl2.1]
  have hd3 : (VimList.paste_below (VimList.copy_current_item sl)).1.items
      = pyInsert ((VimList.copy_current_item sl).cursor.toNat + 1)
          (sl.items.getD sl.cursor.toNat "")
          (VimList.copy_current_item sl).items := by
    rw [hl2.1]
  have hl3 := VimList.paste_below_register
    (VimList.paste_below (VimList.copy_current_item sl)).1
    (sl.items.getD sl.cursor.toNat "") hd1
    (by rw [hd2]; exact Int.natCast_nonneg _)
    (by
      rw [hd2, hd3, hc2, hc3]
      rw [pyInsert_length]
      omega)
  refine ⟨⟨hc1, ?_, ?_, hd1, ?_, ?_, ?_⟩, ?_⟩
  · rw [hd3, hc2, hc3, pyInsert_length]
  · rw [hd3, hc2, hc3]
    exact pyInsert_getD _ _ _ _ (by omega)
  · rw [hl3.1, hd3, hd2, hc2, hc3]
    dsimp only
    rw [Int.toNat_natCast]
  · rw [hl3.1, hd3, hd2, hc2, hc3]
    dsimp only
    rw [Int.toNat_natCast]
    exact (pyInsert_getD_lt _ _ _ _ _ (by omega)
      (by rw [pyInsert_length]; omega)).trans
      (pyInsert_getD _ _ _ _ (by omega))
  · rw [hl3.1, hd3, hd2, hc2, hc3]
    dsimp only
    rw [Int.toNat_natCast]
    rw [show sl.cursor.toNat + 1 + 1 = sl.cursor.toNat + 2 from by omega]
    exact pyInsert_getD _ _ _ _ (by rw [pyInsert_length]; omega)
  have he1 : (copy_current_row t).copied_row = some row := by
    rw [ht1]
  have he2 : (copy_current_row t).copied_cell = none := by
    rw [ht1]
  have he3 : (copy_current_row t).copied_selection = t.copied_selection := by
    rw [ht1]
  have he4 : (copy_current_row t).clipboard = tabJoin row := by
    rw [ht1]
  have he5 : (copy_current_row t).curRow = t.curRow := by
    rw [ht1]
  have he6 : (copy_current_row t).curCol = t.curCol := by
    rw [ht1]
  have he7 : (copy_current_row t).data = t.data := by
    rw [ht1]
  have he8 : (copy_current_row t).columns = t.columns := by
    rw [ht1]
  have ht2 := paste_row_register (copy_current_row t) row
    (by rw [he3]; exact hsel) he2
    (by rw [he4]; exact hstrip) hnl htab hsplit
    (by rw [he8]; exact hlenr)
    (by rw [he5]; exact h0r) (by rw [he5, he7]; exact hrlt)
    (by rw [he6]; exact h0c) (by rw [he6, he8]; exact hclt)
  have hf1 : (paste_row (copy_current_row t)).1.copied_row = some row := by
    rw [ht2.1]
    dsimp only
    exact he1
  have hf2 : (paste_row (copy_current_row t)).1.copied_cell = none := by
    rw [ht2.1]
    dsimp only
    exact he2
  have hf3 : (paste_row (copy_current_row t)).1.copied_selection
      = t.copied_selection := by
    rw [ht2.1]
    dsimp only
    exact he3
  have hf4 : (paste_row (copy_current_row t)).1.clipboard = tabJoin row := by
    rw [ht2.1]
    dsimp only
    exact he4
  have hf5 : (paste_row (copy_current_row t)).1.curRow
      = (((copy_current_row t).curRow.toNat + 1 : Nat) : Int) := by
    rw [ht2.1]
  have hf6 : (paste_row (copy_current_row t)).1.curCol = t.curCol := by
    rw [ht2.1]
    dsimp only
    exact he6
  have hf7 : (paste_row (copy_current_row t)).1.data
      = pyInsert ((copy_current_row t).curRow.toNat + 1) row
          (copy_current_row t).data := by
    rw [ht2.1]
  have hf8 : (paste_row (copy_current_row t)).1.columns = t.columns := by
    rw [ht2.1]
    dsimp only
    exact he8
  have ht3 := paste_row_register (paste_row (copy_current_row t)).1 row
    (by rw [hf3]; exact hsel) hf2
    (by rw [hf4]; exact hstrip) hnl htab hsplit
    (by rw [hf8]; exact hlenr)
    (by rw [hf5]; exact Int.natCast_nonneg _)
    (by
      rw [hf5, hf7, he5, he7]
      rw [pyInsert_length]
      omega)
    (by rw [hf6]; exact h0c) (by rw [hf6, hf8]; exact hclt)
  refine ⟨he1, ?_, ?_, hf1, ?_, ?_, ?_⟩
  · rw [hf7, he5, he7, pyInsert_length]
  · rw [hf7, he5, he7]
    exact pyInsert_getD _ _ _ _ (by omega)
  · rw [ht3.1, hf7, hf5, he5, he7]
    dsimp only
    rw [Int.toNat_natCast]
  · rw [ht3.1, hf7, hf5, he5, he7]
    dsimp only
    rw [Int.toNat_natCast]
    exact (pyInsert_getD_lt _ _ _ _ _ (by omega)
      (by rw [pyInsert_length]; omega)).trans
      (pyInsert_getD _ _ _ _ (by omega))
  · rw [ht3.1, hf7, hf5, he5, he7]
    dsimp only
    rw [Int.toNat_natCast]
    rw [show t.curRow.toNat + 1 + 1 = t.curRow.toNat + 2 from by omega]
    exact pyInsert_getD _ _ _ _ (by rw [pyInsert_length]; omega)

/-- Witness for C3: the list `["a","b"]` with the cursor on `"a"` and a
two-column table whose current row `["x","y"]` serializes reversibly. -/
theorem C3_yank_paste_witness :
    let sl := VimList.initState ["a", "b"] ""
    let t : TableState :=
      { columns := ["A", "B"], data := [["x", "y"], ["u", "w"]], curRow := 0,
        curCol := 0, copied_row := none, copied_cell := none,
        copied_selection := none, pending_delete := false,
        pending_copy := false, delete_start_time := 0, copy_start_time := 0,
        visual_mode := false, visual_line_mode := false,
        visual_start_row := -1, visual_start_col := -1, visual_end_row := -1,
        visual_end_col := -1, clipboard := "z" }
    (VimList.paste_below (VimList.copy_current_item sl)).1.items.length = 3 ∧
    (VimList.paste_below (VimList.copy_current_item sl)).1.items.getD 1 ""
      = "a" ∧
    (paste_row (copy_current_row t)).1.data.length = 3 ∧
    (paste_row (copy_current_row t)).1.copied_row = some ["x", "y"] ∧
    (paste_row (paste_row (copy_current_row t)).1).1.data
      = [["x", "y"], ["x", "y"], ["x", "y"], ["u", "w"]] := by
  intro sl t
  have h := C3_yank_paste sl (by decide) (by decide) t ["x", "y"]
    (by decide) rfl (by decide) (by decide) (by decide) (by decide) rfl
    (by decide) (by decide) (by decide) (by decide)
  refine ⟨?_, ?_, ?_, ?_, ?_⟩
  · rw [h.1.2.1]
    rfl
  · exact h.1.2.2.1
  · rw [h.2.2.1]
    rfl
  · exact h.2.2.2.2.1
  · rw [h.2.2.2.2.2.1]
    rfl


theorem padRow_length (row : List String) (n : Nat) :
    (padRow row n).length = max row.length n := by
  simp [padRow]
  omega

/-- The cell-writing loop of `_paste_visual_selection` never changes
the length of a row that already matches the column count. -/
theorem writeCells_length (tr ncols : Nat) : ∀ (cells : List String) (tc : Nat)
    (row : List String), row.length = ncols →
    (writeCells tr ncols tc cells row).1.length = ncols := by
  intro cells
  induction cells with
  | nil =>
    intro tc row h
    exact h
  | cons v rest ih =>
    intro tc row h
    by_cases htc : tc < ncols
    · show (if tc < ncols then _ else _ : List String × List OutEv).1.length = ncols
      rw [if_pos htc]
      dsimp only
      apply ih
      rw [List.length_set, padRow_length]
      omega
    · show (if tc < ncols then _ else _ : List String × List OutEv).1.length = ncols
      rw [if_neg htc]
      exact ih _ _ h

theorem pyInsert_mem {α : Type} (i : Nat) (a : α) (l : List α) :
    ∀ r ∈ pyInsert i a l, r = a ∨ r ∈ l := by
  intro r hr
  unfold pyInsert at hr
  rcases List.mem_append.mp hr with h | h
  · exact Or.inr (List.mem_of_mem_take h)
  · rcases List.mem_cons.mp h with h | h
    · exact Or.inl h
    · exact Or.inr (List.mem_of_mem_drop h)

/-- The row loop of `_paste_visual_selection` keeps every row at the
column count: appended filler rows are blank rows of that length, and
written rows stay at that length. -/
theorem pasteRows_rowsOk (ncols c : Nat) : ∀ (sel : List (List String)) (tr : Nat)
    (data : List (List String)), (∀ r ∈ data, r.length = ncols) →
    ∀ r ∈ (pasteRows ncols c tr sel data).1, r.length = ncols := by
  intro sel
  induction sel with
  | nil =>
    intro tr data h
    exact h
  | cons cells rest ih =>
    intro tr data h r hr
    have hd1 : ∀ r2 ∈ data ++ List.replicate (tr + 1 - data.length)
        (List.replicate ncols ""), r2.length = ncols := by
      intro r2 hr2
      rcases List.mem_append.mp hr2 with h1 | h1
      · exact h r2 h1
      · rw [List.eq_of_mem_replicate h1]
        simp
    have hlen1 : tr < (data ++ List.replicate (tr + 1 - data.length)
        (List.replicate ncols "")).length := by
      rw [List.length_append, List.length_replicate]
      omega
    have hgetd : ((data ++ List.replicate (tr + 1 - data.length)
        (List.replicate ncols "")).getD tr []).length = ncols := by
      rw [List.getD_eq_getElem _ _ hlen1]
      exact hd1 _ (List.getElem_mem hlen1)
    have hd2 : ∀ r2 ∈ (data ++ List.replicate (tr + 1 - data.length)
          (List.replicate ncols "")).set tr
        (writeCells tr ncols c cells ((data ++ List.replicate (tr + 1 - data.length)
          (List.replicate ncols "")).getD tr [])).1, r2.length = ncols := by
      intro r2 hr2
      rcases List.mem_or_eq_of_mem_set hr2 with h1 | h1
      · exact hd1 r2 h1
      · rw [h1]
        exact writeCells_length tr ncols cells c _ hgetd
    simp only [pasteRows] at hr
    exact ih (tr + 1) _ hd2 r hr

/-- `_paste_visual_selection` preserves the tabular shape invariant. -/
theorem paste_visual_selection_rowsOk (s : TableState) (h : rowsOk s) :
    rowsOk (paste_visual_selection s).1 := by
  unfold paste_visual_selection
  cases hcs : s.copied_selection with
  | none => exact h
  | some sel =>
    dsimp only
    by_cases hrc : 0 ≤ s.curRow ∧ 0 ≤ s.curCol
    · rw [if_pos hrc]
      intro r hr
      dsimp only at hr ⊢
      exact pasteRows_rowsOk s.columns.length s.curCol.toNat sel s.curRow.toNat
        s.data h r hr
    · rw [if_neg hrc]
      exact h

/-- Padding or truncating a row to the column count yields exactly the
column count. -/
theorem padTrunc_length (pr0 : List String) (n : Nat) :
    (if pr0.length < n then pr0 ++ List.replicate (n - pr0.length) ""
     else if n < pr0.length then pr0.take n else pr0).length = n := by
  by_cases h1 : pr0.length < n
  · rw [if_pos h1]
    simp
    omega
  · rw [if_neg h1]
    by_cases h2 : n < pr0.length
    · rw [if_pos h2]
      simp
      omega
    · rw [if_neg h2]
      omega


/-- `_paste_row` preserves the tabular shape invariant along every one
of its branches. -/
theorem paste_row_rowsOk (s : TableState) (h : rowsOk s) :
    rowsOk (paste_row s).1 := by
  have hset : ∀ (hok : 0 ≤ s.curRow ∧ 0 ≤ s.curCol ∧
      s.curRow < (s.data.length : Int) ∧
      s.curCol < ((s.data.getD s.curRow.toNat []).length : Int)) (v : String),
      ∀ r ∈ s.data.set s.curRow.toNat
        ((s.data.getD s.curRow.toNat []).set s.curCol.toNat v),
        r.length = s.columns.length := by
    intro hok v r hr
    rcases List.mem_or_eq_of_mem_set hr with h1 | h1
    · exact h r h1
    · rw [h1, List.length_set]
      refine h _ ?_
      rw [List.getD_eq_getElem _ _ (by omega)]
      exact List.getElem_mem _
  unfold paste_row
  dsimp only
  by_cases hsel : s.copied_selection.isSome = true
  · rw [if_pos hsel]
    exact paste_visual_selection_rowsOk s h
  · rw [if_neg hsel]
    cases hcell : s.copied_cell with
    | some cell =>
      dsimp only
      by_cases hok : 0 ≤ s.curRow ∧ 0 ≤ s.curCol ∧
          s.curRow < (s.data.length : Int) ∧
          s.curCol < ((s.data.getD s.curRow.toNat []).length : Int)
      · rw [if_pos hok]
        intro r hr
        dsimp only at hr ⊢
        exact hset hok cell r hr
      · rw [if_neg hok]
        exact h
    | none =>
      dsimp only
      by_cases hb1 : pyStrip s.clipboard ≠ "" ∧
          pyHasChar (pyStrip s.clipboard) '\n' = true
      · rw [if_pos hb1]
        unfold paste_clipboard_visual_selection
        dsimp only
        intro r hr
        dsimp only at hr ⊢
        refine paste_visual_selection_rowsOk _ ?_ r hr
        intro r2 hr2
        exact h r2 hr2
      · rw [if_neg hb1]
        by_cases hb2 : pyStrip s.clipboard ≠ "" ∧
            ¬ pyHasChar (pyStrip s.clipboard) '\t' = true
        · rw [if_pos hb2]
          by_cases hok : 0 ≤ s.curRow ∧ 0 ≤ s.curCol ∧
              s.curRow < (s.data.length : Int) ∧
              s.curCol < ((s.data.getD s.curRow.toNat []).length : Int)
          · rw [if_pos hok]
            intro r hr
            dsimp only at hr ⊢
            exact hset hok (pyStrip s.clipboard) r hr
          · rw [if_neg hok]
            exact h
        · rw [if_neg hb2]
          by_cases hct : pyStrip s.clipboard ≠ ""
          · rw [if_pos hct]
            have hcond : ¬ (¬ truthyRow (some (pySplit (pyStrip s.clipboard)
                '\t')) = true ∧ truthyRow s.copied_row = true) := by
              rw [truthyRow_pySplit]
              simp
            rw [if_neg hcond]
            rw [if_pos (truthyRow_pySplit (pyStrip s.clipboard) '\t')]
            intro r hr
            dsimp only at hr ⊢
            rcases pyInsert_mem _ _ _ r hr with h1 | h1
            · rw [h1]
              exact padTrunc_length _ _
            · exact h r h1
          · rw [if_neg hct]
            have hnone : ¬ truthyRow (none : Option (List String)) = true := by
              simp [truthyRow]
            by_cases hcr2 : truthyRow s.copied_row = true
            · rw [if_pos (And.intro hnone hcr2), if_pos hcr2]
              intro r hr
              dsimp only at hr ⊢
              rcases pyInsert_mem _ _ _ r hr with h1 | h1
              · rw [h1]
                exact padTrunc_length _ _
              · exact h r h1
            · have hcondn : ¬ (¬ truthyRow (none : Option (List String)) = true ∧
                  truthyRow s.copied_row = true) := fun hc => hcr2 hc.2
              rw [if_neg hcondn, if_neg hnone]
              exact h

/-- C5: if every row has exactly as many cells as there are columns,
then the same holds again after add-column-right, add-column-end,
delete-column, and paste-row (pasted rows are padded or truncated to
the column count). -/
theorem C5_row_length_invariant (s : TableState) (h : rowsOk s) :
    rowsOk (add_column_right s) ∧ rowsOk (add_column_end s) ∧
    rowsOk (delete_current_column s).1 ∧ rowsOk (paste_row s).1 := by
  refine ⟨?_, ?_, ?_, paste_row_rowsOk s h⟩
  · intro r hr
    unfold add_column_right at hr ⊢
    dsimp only at hr ⊢
    rcases List.mem_map.mp hr with ⟨row0, hrow0, hEq⟩
    rw [← hEq, pyInsert_length, pyInsert_length, h row0 hrow0]
  · intro r hr
    unfold add_column_end at hr ⊢
    dsimp only at hr ⊢
    rcases List.mem_map.mp hr with ⟨row0, hrow0, hEq⟩
    rw [← hEq, List.length_append, List.length_append, h row0 hrow0]
    rfl
  · unfold delete_current_column
    dsimp only
    by_cases hc : 0 ≤ s.curCol ∧ 1 < s.columns.length
    · rw [if_pos hc]
      intro r hr
      dsimp only at hr ⊢
      rcases List.mem_map.mp hr with ⟨row0, hrow0, hEq⟩
      rw [← hEq]
      have hrl := h row0 hrow0
      by_cases hcc : s.curCol < (row0.length : Int)
      · rw [if_pos hcc, List.length_eraseIdx, List.length_eraseIdx,
          if_pos (show s.curCol.toNat < row0.length from by omega),
          if_pos (show s.curCol.toNat < s.columns.length from by omega), hrl]
      · rw [if_neg hcc, List.length_eraseIdx,
          if_neg (show ¬ s.curCol.toNat < s.columns.length from by omega), hrl]
    · rw [if_neg hc]
      exact h

/-- Witness for C5 on a concrete well-shaped 2 x 2 table with a
clipboard holding a tab-serialized row. -/
theorem C5_row_length_invariant_witness :
    let st : TableState :=
      { columns := ["A", "B"], data := [["x", "y"], ["u", "w"]], curRow := 0,
        curCol := 0, copied_row := none, copied_cell := none,
        copied_selection := none, pending_delete := false,
        pending_copy := false, delete_start_time := 0, copy_start_time := 0,
        visual_mode := false, visual_line_mode := false,
        visual_start_row := -1, visual_start_col := -1, visual_end_row := -1,
        visual_end_col := -1, clipboard := "p\tq" }
    rowsOk st ∧ rowsOk (add_column_right st) ∧ rowsOk (add_column_end st) ∧
    rowsOk (delete_current_column st).1 ∧ rowsOk (paste_row st).1 := by
  intro st
  exact ⟨by decide, C5_row_length_invariant st (by decide)⟩


end VimTable

namespace VimList

end VimList

end GuiWidgets
